import Mathlib

/-!
Verification development for the Bardic interactive-fiction compiler and
runtime (`src/bardic/compiler/*`, `src/bardic/runtime/engine.py`).

The Python code is shallowly embedded: dictionaries become association
lists, Python exceptions become `Except` errors, and the host Python
capabilities that the engine merely invokes (`eval`, `exec`,
`format`, `int()` / `float()` conversions, iteration over arbitrary
objects) are collected in a `Host` structure of oracle functions, exactly
as the specification treats them ("a capability the runtime requires").
The unbounded `while` loops of the source are realised with explicit fuel;
a distinguished `fuelExhausted` error marks the (provably unreachable, see
the termination theorem) out-of-fuel case.
-/

namespace Bardic

/-- Python runtime values as they occur in engine state: the JSON-safe
universe of `None`, booleans, integers, strings, lists and string-keyed
dictionaries.  Host-language objects, classes and floats are outside the
modelled universe (the engine only ever passes them to host capabilities). -/
inductive Value where
  | none : Value
  | bool (b : Bool) : Value
  | int (n : Int) : Value
  | str (s : String) : Value
  | list (xs : List Value) : Value
  | dict (kvs : List (String × Value)) : Value

mutual

/-- Decidable equality for the nested inductive `Value`. -/
def Value.deq : (a b : Value) → Decidable (a = b)
  | .none, .none => isTrue rfl
  | .bool a, .bool b =>
    match decEq a b with
    | isTrue h => isTrue (by rw [h])
    | isFalse h => isFalse (fun hh => by cases hh; exact h rfl)
  | .int a, .int b =>
    match decEq a b with
    | isTrue h => isTrue (by rw [h])
    | isFalse h => isFalse (fun hh => by cases hh; exact h rfl)
  | .str a, .str b =>
    match decEq a b with
    | isTrue h => isTrue (by rw [h])
    | isFalse h => isFalse (fun hh => by cases hh; exact h rfl)
  | .list xs, .list ys =>
    match Value.deqList xs ys with
    | isTrue h => isTrue (by rw [h])
    | isFalse h => isFalse (fun hh => by cases hh; exact h rfl)
  | .dict xs, .dict ys =>
    match Value.deqKVs xs ys with
    | isTrue h => isTrue (by rw [h])
    | isFalse h => isFalse (fun hh => by cases hh; exact h rfl)
  | .none, .bool _ | .none, .int _ | .none, .str _ | .none, .list _ | .none, .dict _
  | .bool _, .none | .bool _, .int _ | .bool _, .str _ | .bool _, .list _ | .bool _, .dict _
  | .int _, .none | .int _, .bool _ | .int _, .str _ | .int _, .list _ | .int _, .dict _
  | .str _, .none | .str _, .bool _ | .str _, .int _ | .str _, .list _ | .str _, .dict _
  | .list _, .none | .list _, .bool _ | .list _, .int _ | .list _, .str _ | .list _, .dict _
  | .dict _, .none | .dict _, .bool _ | .dict _, .int _ | .dict _, .str _ | .dict _, .list _ =>
    isFalse (fun h => Value.noConfusion h)

/-- Decidable equality for lists of values. -/
def Value.deqList : (a b : List Value) → Decidable (a = b)
  | [], [] => isTrue rfl
  | [], _ :: _ => isFalse (fun h => List.noConfusion h)
  | _ :: _, [] => isFalse (fun h => List.noConfusion h)
  | x :: xs, y :: ys =>
    match Value.deq x y, Value.deqList xs ys with
    | isTrue h1, isTrue h2 => isTrue (by rw [h1, h2])
    | isFalse h1, _ => isFalse (fun hh => by cases hh; exact h1 rfl)
    | _, isFalse h2 => isFalse (fun hh => by cases hh; exact h2 rfl)

/-- Decidable equality for string-keyed pair lists of values. -/
def Value.deqKVs : (a b : List (String × Value)) → Decidable (a = b)
  | [], [] => isTrue rfl
  | [], _ :: _ => isFalse (fun h => List.noConfusion h)
  | _ :: _, [] => isFalse (fun h => List.noConfusion h)
  | (k1, v1) :: xs, (k2, v2) :: ys =>
    match decEq k1 k2, Value.deq v1 v2, Value.deqKVs xs ys with
    | isTrue h0, isTrue h1, isTrue h2 => isTrue (by rw [h0, h1, h2])
    | isFalse h0, _, _ => isFalse (fun hh => by cases hh; exact h0 rfl)
    | _, isFalse h1, _ => isFalse (fun hh => by cases hh; exact h1 rfl)
    | _, _, isFalse h2 => isFalse (fun hh => by cases hh; exact h2 rfl)

end

instance : DecidableEq Value := Value.deq

/-- An environment / Python dict with string keys: an association list whose
update discipline (`envSet`) mirrors `dict` semantics (update in place keeps
the original insertion position; new keys append). -/
abbrev Env := List (String × Value)

/-- Dictionary lookup: first binding of the key. -/
def envGet (e : Env) (k : String) : Option Value :=
  match e with
  | [] => Option.none
  | (k', v) :: rest => if k' = k then some v else envGet rest k

/-- Dictionary update (`d[k] = v`): replace in place, else append. -/
def envSet (e : Env) (k : String) (v : Value) : Env :=
  match e with
  | [] => [(k, v)]
  | (k', v') :: rest => if k' = k then (k, v) :: rest else (k', v') :: envSet rest k v

/-- Dictionary deletion (`del d[k]`). -/
def envDel (e : Env) (k : String) : Env :=
  e.filter (fun kv => kv.1 ≠ k)

/-- `key in d` for a dict. -/
def envHas (e : Env) (k : String) : Bool :=
  (envGet e k).isSome

/-- `\x7b**context, **state\x7d`: context bindings overridden by state
bindings (the merge is computed read-side, as in the engine). -/
def mergeEnv (ctx st : Env) : Env :=
  st.foldl (fun acc kv => envSet acc kv.1 kv.2) ctx

/-- List prefix test (structural, kernel-reducible). -/
def isPrefixList : List Char → List Char → Bool
  | [], _ => true
  | _ :: _, [] => false
  | a :: as, b :: bs => a = b ∧ isPrefixList as bs

/-- The split loop behind `pySplit` (fuel = text length + 1; every pass
consumes at least one character for a non-empty separator). -/
def splitListAux (sep : List Char) : Nat → List Char → List Char → List (List Char)
  | 0, acc, _ => [acc.reverse]
  | _, acc, [] => [acc.reverse]
  | fuel + 1, acc, c :: cs =>
    if isPrefixList sep (c :: cs) then
      acc.reverse :: splitListAux sep fuel [] ((c :: cs).drop sep.length)
    else splitListAux sep fuel (c :: acc) cs

/-- `str.split(sep)` for a non-empty separator, all occurrences, empty
pieces kept (kernel-reducible replacement for the library `splitOn`). -/
def pySplit (s sep : String) : List String :=
  (splitListAux sep.data (s.data.length + 1) [] s.data).map String.mk

/-- `"sep".join(parts)`. -/
def pyJoin (sep : String) : List String → String
  | [] => ""
  | [x] => x
  | x :: rest => x ++ sep ++ pyJoin sep rest

/-- `s.startswith(pre)`. -/
def pyStartsWith (s pre : String) : Bool :=
  isPrefixList pre.data s.data

/-- `s.endswith(suf)`. -/
def pyEndsWith (s suf : String) : Bool :=
  isPrefixList suf.data.reverse s.data.reverse

/-- `s[n:]` (character based). -/
def pyDrop (s : String) (n : Nat) : String :=
  String.mk (s.data.drop n)

/-- `s[:n]`. -/
def pyTake (s : String) (n : Nat) : String :=
  String.mk (s.data.take n)

/-- `s[:-n]` for `0 < n ≤ len(s)`. -/
def pyDropRight (s : String) (n : Nat) : String :=
  String.mk (s.data.take (s.data.length - n))

/-- `s.lstrip()`. -/
def pyLStrip (s : String) : String :=
  String.mk (s.data.dropWhile (fun c => c.isWhitespace))

/-- `s.rstrip()`. -/
def pyRStrip (s : String) : String :=
  String.mk ((s.data.reverse.dropWhile (fun c => c.isWhitespace)).reverse)

/-- `s.strip()`. -/
def pyStrip (s : String) : String :=
  pyLStrip (pyRStrip s)

/-- `s.lower()` (ASCII). -/
def pyLower (s : String) : String :=
  String.mk (s.data.map Char.toLower)

/-- `s.replace(pat, rep)` for a non-empty pattern. -/
def pyReplace (s pat rep : String) : String :=
  pyJoin rep (pySplit s pat)

/-- Python exception raised by a host capability (an embedded `eval`,
`exec`, `format`, iteration, ...).  The engine dispatches on the
exception class, so the class is part of the model. -/
inductive EvalErr where
  | nameError (msg : String) : EvalErr
  | typeError (msg : String) : EvalErr
  | attributeError (msg : String) : EvalErr
  | exc (typeName : String) (msg : String) : EvalErr
deriving Repr, DecidableEq

/-- `str(e)` of a host exception. -/
def EvalErr.msg : EvalErr → String
  | .nameError m => m
  | .typeError m => m
  | .attributeError m => m
  | .exc _ m => m

/-- `type(e).__name__` of a host exception. -/
def EvalErr.typeName : EvalErr → String
  | .nameError _ => "NameError"
  | .typeError _ => "TypeError"
  | .attributeError _ => "AttributeError"
  | .exc n _ => n

/-- Python exception escaping an engine entry point. -/
inductive PyErr where
  | valueError (msg : String) : PyErr
  | runtimeError (msg : String) : PyErr
  | indexError (msg : String) : PyErr
  | assertionError : PyErr
  | fuelExhausted : PyErr
  | renderDepth : PyErr
deriving Repr, DecidableEq

/-- Host-language capabilities the engine invokes but does not implement
(CPython's `eval`, `exec`, `format`, conversions, reflection-based
deserialization).  The theorems quantify over any host; witnesses fix
small concrete ones. -/
structure Host where
  /-- `eval(code, safe_builtins, eval_context)`. -/
  evalStr : String → Env → Except EvalErr Value
  /-- `exec(code, safe_builtins, exec_context)`: the resulting local
  namespace after executing the statements. -/
  execPy : String → Env → Except EvalErr Env
  /-- `for item in collection`: iteration over an evaluated collection. -/
  pyIter : Value → Except EvalErr (List Value)
  /-- `bool(v)` truthiness. -/
  pyBool : Value → Bool
  /-- `str(v)`. -/
  pyStr : Value → String
  /-- `format(v, spec)`. -/
  pyFormat : Value → String → Except EvalErr String
  /-- `int(s)` returning `Option.none` where CPython raises `ValueError`. -/
  pyInt : String → Option Value
  /-- `float(s)` likewise. -/
  pyFloat : String → Option Value
  /-- `_parse_directive_args`: `ast.parse` of a synthetic call plus `eval`
  of each argument; returns the evaluated `\x7bname: value\x7d` pairs. -/
  parseDirArgs : String → Env → Except EvalErr (List (String × Value))
  /-- A registered framework post-processor (`_process_for_react`:
  PascalCase conversion plus a uuid-based key, both host behaviour). -/
  frameworkProc : String → String → List (String × Value) → Value
  /-- `exec` of the joined import statements: resulting namespace. -/
  execImports : String → Except EvalErr Env
  /-- `datetime.now().isoformat()`. -/
  timestamp : String
  /-- `_deserialize_value`'s class branch: `from_save_dict` /
  `__new__`-based reconstruction of a registered class instance (total in
  the source thanks to its fallback handlers). -/
  deserializeObj : String → Value → Value

/-- `sub in s` for strings, via `splitOn` (non-empty `sub`). -/
def containsSub (s sub : String) : Bool :=
  (pySplit s sub).length ≠ 1

/-- A token of a tokenized choice text or single content line, as produced
by `parse_content_line`: a literal text run or an interpolation expression,
optionally tagged (tags are attached to the last token of a line). -/
inductive CTok where
  | text (value : String) (tags : Option (List String)) : CTok
  | expr (code : String) (tags : Option (List String)) : CTok
deriving Repr, DecidableEq

/-- The `text` field of a compiled choice: either a plain string (the old
compiled format, still accepted by the engine) or the token list produced
by the current `parse_choice_line`. -/
inductive ChoiceText where
  | s (v : String) : ChoiceText
  | toks (ts : List CTok) : ChoiceText
deriving Repr, DecidableEq

/-- A compiled choice record (`parse_choice_line` output; also the shape of
choice dicts spliced into conditional branches and loops). -/
structure PChoice where
  text : ChoiceText
  target : String
  condition : Option String
  sticky : Bool
  tags : List String
deriving Repr, DecidableEq

/-- An `@input` directive record (`parse_input_line` output). -/
structure InputTok where
  name : String
  label : String
  placeholder : String
deriving Repr, DecidableEq

/-- A `@render` directive record (`parse_render_line` output). -/
structure RenderTok where
  name : String
  args : String
  frameworkHint : Option String
deriving Repr, DecidableEq

/-- A compiled `execute` command of a passage.  `parser.py` emits `set_var`
and `python_block`; the refactored `parsing/core.py` emits
`python_statement`, which `_execute_commands` in the engine does not
recognise and silently skips. -/
inductive Command where
  | setVar (var : String) (expression : String) : Command
  | pythonBlock (code : String) : Command
  | pythonStatement (code : String) : Command
deriving Repr, DecidableEq

/-- A content-stream node as consumed by `_render_content`.  `setVar` and
`exprStmt` are the `set_var` / `expression_statement` tokens that
`parsing/blocks.py` may splice into conditional branches; the engine's
dispatch chain has no case for them, so rendering skips them. -/
inductive Token where
  | text (value : String) (tags : Option (List String) := Option.none) : Token
  | expr (code : String) (tags : Option (List String) := Option.none) : Token
  | renderDir (d : RenderTok) : Token
  | inputDir (d : InputTok) : Token
  | pythonBlock (code : String) : Token
  | setVar (var : String) (expression : String) : Token
  | exprStmt (code : String) : Token
  | conditional (branches : List (String × List Token × List PChoice)) : Token
  | forLoop (var : String) (collection : String)
      (content : List Token) (choices : List PChoice) : Token
  | jump (target : String) : Token

/-- A compiled passage. -/
structure Passage where
  id : String
  tags : List String
  content : List Token
  choices : List PChoice
  execute : List Command
  inputDirectives : List InputTok

/-- A compiled document (the engine's `story_data`). -/
structure Document where
  version : String
  initialPassage : String
  metadata : List (String × String)
  imports : List String
  passages : List (String × Passage)

/-- A processed render directive, as built by `_process_render_directive`
(always a dict whose `type` key is `"render_directive"`). -/
inductive RenderedDirective where
  | evaluated (name : String) (data : List (String × Value))
      (framework : Option (String × Value)) : RenderedDirective
  | errored (name : String) (error : String) (rawArgs : String) : RenderedDirective
  | raw (name : String) (rawArgs : String) (stateSnapshot : Env)
      (frameworkHint : Option String) : RenderedDirective
deriving DecidableEq

/-- An element of the `directives` list accumulated by `_render_content`;
`_render_passage` partitions it by the dict's `type` tag, which here is the
constructor. -/
inductive DirItem where
  | choiceD (c : PChoice) : DirItem
  | inputD (d : InputTok) : DirItem
  | renderD (d : RenderedDirective) : DirItem
deriving DecidableEq

/-- `PassageOutput` of the engine.  Choice texts are rendered strings
(wrapped back in `ChoiceText.s` because the source keeps the same dict
shape). -/
structure PassageOutput where
  content : String
  choices : List PChoice
  passageId : String
  renderDirectives : List RenderedDirective
  inputDirectives : List InputTok
  jumpTarget : Option String
deriving DecidableEq

/-- The engine's mutable state plus its construction-time configuration. -/
structure Engine where
  doc : Document
  currentPassageId : Option String
  state : Env
  usedChoices : List String
  context : Env
  evaluateDirectives : Bool
  currentOutput : Option PassageOutput

/-- The save snapshot produced by `save_state` (field per JSON key;
`version : Option _` models presence of the `version` key, which
`load_state` validates). -/
structure SaveData where
  version : Option String
  storyVersion : String
  storyName : String
  storyId : String
  timestamp : String
  currentPassageId : Option String
  state : Env
  usedChoices : List String
  metaPassageCount : Nat
  metaInitialPassage : String

/-- A single apostrophe, used when building Python `repr` strings. -/
def sq : String := String.mk [Char.ofNat 39]

/-- Python `repr` of a string, for strings free of quotes, backslashes and
control characters (the only ones that occur in the modelled documents). -/
def pyReprString (s : String) : String := sq ++ s ++ sq

/-- Python `repr` of one token dict of a tokenized choice text, with the
keys in the insertion order `parse_content_line` uses
(`type`, `value` / `code`, then `tags` when attached). -/
def pyReprCTok : CTok → String
  | .text v tags =>
    "\x7b" ++ pyReprString "type" ++ ": " ++ pyReprString "text" ++ ", "
      ++ pyReprString "value" ++ ": " ++ pyReprString v
      ++ (match tags with
          | Option.none => ""
          | some ts =>
            ", " ++ pyReprString "tags" ++ ": ["
              ++ pyJoin ", " (ts.map pyReprString) ++ "]")
      ++ "\x7d"
  | .expr c tags =>
    "\x7b" ++ pyReprString "type" ++ ": " ++ pyReprString "expression" ++ ", "
      ++ pyReprString "code" ++ ": " ++ pyReprString c
      ++ (match tags with
          | Option.none => ""
          | some ts =>
            ", " ++ pyReprString "tags" ++ ": ["
              ++ pyJoin ", " (ts.map pyReprString) ++ "]")
      ++ "\x7d"

/-- What an f-string interpolation produces for a choice's `text` field: the
string itself for the old string format, Python `repr` of the token-dict
list for the tokenized format (`f"..\x7bchoice['text']\x7d.."` calls
`str`, which on a `list` is `repr`). -/
def choiceTextKey : ChoiceText → String
  | .s v => v
  | .toks ts => "[" ++ pyJoin ", " (ts.map pyReprCTok) ++ "]"

/-- `f"\x7bself.current_passage_id\x7d"` (`"None"` when unset). -/
def pidKey : Option String → String
  | Option.none => "None"
  | some p => p

/-- The choice-identity string
`f"\x7bpid\x7d:\x7bchoice['text']\x7d:\x7bchoice['target']\x7d"` used by
both `choose` and `_is_choice_available`. -/
def choiceId (pid : Option String) (text : ChoiceText) (target : String) : String :=
  pidKey pid ++ ":" ++ choiceTextKey text ++ ":" ++ target

/-- `_is_choice_available`: hidden when one-time and already used, else
hidden when a present, non-empty condition evaluates falsy or raises. -/
def isChoiceAvailable (h : Host) (ctx st : Env) (used : List String)
    (pid : Option String) (c : PChoice) : Bool :=
  if ¬c.sticky ∧ choiceId pid c.text c.target ∈ used then
    false
  else
    match c.condition with
    | Option.none => true
    | some cond =>
      -- `if not condition: return True` also treats the empty string as
      -- "no condition".
      if cond = "" then true
      else
        match h.evalStr cond (mergeEnv ctx st) with
        | .ok v => h.pyBool v
        | .error _ => false

/-- `_parse_literal`.  Total in the source: every failure of the numeric
conversions is swallowed by the surrounding `except ValueError: pass` and
falls through to the quote check. -/
def parseLiteral (h : Host) (valueStr : String) : Value :=
  let value := pyStrip valueStr
  if pyLower value = "true" then .bool true
  else if pyLower value = "false" then .bool false
  else
    let numeric : Option Value :=
      if containsSub value "." then h.pyFloat value else h.pyInt value
    match numeric with
    | some v => v
    | Option.none =>
      if (pyStartsWith value "\"" ∧ pyEndsWith value "\"")
          ∨ (pyStartsWith value sq ∧ pyEndsWith value sq) then
        .str (pyDropRight (pyDrop value 1) 1)
      else .str value

/-- `_execute_set_var`: evaluate; on `NameError` raise; on any other
evaluation error store the `_parse_literal` fallback. -/
def executeSetVar (h : Host) (ctx st : Env) (var expression : String) :
    Except PyErr Env :=
  match h.evalStr expression (mergeEnv ctx st) with
  | .ok v => .ok (envSet st var v)
  | .error (.nameError m) =>
    .error (.runtimeError
      ("Variable assignment failed: " ++ var ++ " = " ++ expression
        ++ " Undefined variable in expression: " ++ m))
  | .error _ => .ok (envSet st var (parseLiteral h expression))

/-- `_execute_python_block`: run the block in the merged namespace, then
copy back every binding that does not start with `_` and is not a context
key; errors are fatal `RuntimeError`s. -/
def executePythonBlock (h : Host) (ctx st : Env) (code : String) :
    Except PyErr Env :=
  match h.execPy code (mergeEnv ctx st) with
  | .ok ns =>
    .ok (ns.foldl
      (fun acc kv =>
        if pyStartsWith kv.1 "_" ∨ envHas ctx kv.1 then acc
        else envSet acc kv.1 kv.2)
      st)
  | .error (.exc "SyntaxError" m) =>
    .error (.runtimeError ("Syntax error in Python block: " ++ m ++ " Code: " ++ code))
  | .error (.nameError m) =>
    .error (.runtimeError ("Undefined variable in Python block: " ++ m ++ " Code: " ++ code))
  | .error e =>
    .error (.runtimeError
      ("Error executing Python block: " ++ e.typeName ++ ": " ++ e.msg ++ " Code: " ++ code))

/-- `_execute_commands`: sequential dispatch on the command's `type`;
commands of any other type (notably `python_statement` emitted by the
refactored parser) fall through the `if`/`elif` chain unexecuted. -/
def executeCommands (h : Host) (ctx : Env) : Env → List Command → Except PyErr Env
  | st, [] => .ok st
  | st, .setVar var expression :: rest =>
    match executeSetVar h ctx st var expression with
    | .ok st' => executeCommands h ctx st' rest
    | .error e => .error e
  | st, .pythonBlock code :: rest =>
    match executePythonBlock h ctx st code with
    | .ok st' => executeCommands h ctx st' rest
    | .error e => .error e
  | st, .pythonStatement _ :: rest => executeCommands h ctx st rest

/-- `_execute_passage`: passage lookup, then its `execute` commands. -/
def executePassage (h : Host) (ctx : Env) (passages : List (String × Passage))
    (pid : String) (st : Env) : Except PyErr Env :=
  match passages.lookup pid with
  | Option.none => .error (.valueError ("Passage " ++ sq ++ pid ++ sq ++ " not found."))
  | some p => executeCommands h ctx st p.execute

/-- `str(e)` of an engine-level exception (used when `_render_loop`'s
`except` handler stringifies whatever escaped the loop body). -/
def PyErr.msgOf : PyErr → String
  | .valueError m => m
  | .runtimeError m => m
  | .indexError m => m
  | .assertionError => "assert"
  | .fuelExhausted => "fuel"
  | .renderDepth => "render depth"

/-- The inline error marker `_render_content` emits for a failed
interpolation, dispatching on the exception class exactly as the four
`except` arms do (the `NameError` arm interpolates the full token code). -/
def exprErrMarker (code : String) : EvalErr → String
  | .nameError _ =>
    "\x7bERROR: undefined variable " ++ sq ++ code ++ sq ++ "\x7d"
  | .typeError m => "\x7bERROR: " ++ code ++ " - " ++ m ++ "\x7d"
  | .attributeError m => "\x7bERROR: " ++ code ++ " - " ++ m ++ "\x7d"
  | .exc n m => "\x7bERROR: " ++ code ++ " - " ++ n ++ ": " ++ m ++ "\x7d"

/-- The format-spec test of `_render_content`: the code contains a colon
and none of the multi-character operators `==`, `!=`, `<=`, `>=`, `::`. -/
def hasFormatSpec (code : String) : Bool :=
  containsSub code ":" ∧ ¬(containsSub code "==" ∨ containsSub code "!="
    ∨ containsSub code "<=" ∨ containsSub code ">=" ∨ containsSub code "::")

/-- `code[:colon_idx]` and `code[colon_idx + 1:]` for the first colon. -/
def splitAtFirstColon (code : String) : String × String :=
  match pySplit code ":" with
  | [] => (code, "")
  | first :: rest => (first, pyJoin ":" rest)

/-- Rendering of one `expression` token (shared by content lines and
tokenized choice texts, which run the same source block): evaluate (with
optional format spec) and stringify; every exception becomes an inline
error marker. -/
def renderExprToken (h : Host) (ec : Env) (code : String) : String :=
  if hasFormatSpec code then
    let parts := splitAtFirstColon code
    let expr := pyStrip parts.1
    let formatSpec := pyStrip parts.2
    match h.evalStr expr ec with
    | .ok v =>
      match h.pyFormat v formatSpec with
      | .ok s => s
      | .error e => exprErrMarker code e
    | .error e => exprErrMarker code e
  else
    match h.evalStr code ec with
    | .ok v => h.pyStr v
    | .error e => exprErrMarker code e

/-- `_process_render_directive`.  In evaluated mode argument parsing
failures are caught and returned as an error-mode payload; raw mode
snapshots the state for the frontend. -/
def processRenderDirective (h : Host) (ctx st : Env) (evalDirs : Bool)
    (d : RenderTok) : RenderedDirective :=
  if evalDirs then
    let argsRes : Except EvalErr (List (String × Value)) :=
      if d.args ≠ "" then h.parseDirArgs d.args (mergeEnv ctx st) else .ok []
    match argsRes with
    | .ok args =>
      let fw : Option (String × Value) :=
        match d.frameworkHint with
        | some hint =>
          if hint = "react" then some (hint, h.frameworkProc hint d.name args)
          else Option.none
        | Option.none => Option.none
      .evaluated d.name args fw
    | .error e =>
      .errored d.name ("Could not parse directive arguments: " ++ d.args ++ " " ++ e.msg) d.args
  else
    let hint : Option String :=
      match d.frameworkHint with
      | some hh => if hh = "" then Option.none else some hh
      | Option.none => Option.none
    .raw d.name d.args st hint

/-- Rendering of a tokenized choice text: `_render_choice_text` feeds such
a token list (which `parse_content_line` builds only from `text` and
`expression` tokens) through `_render_content`; restricted to those two
token kinds the walk is the plain fold modelled here. -/
def renderCTokens (h : Host) (ctx st : Env) : List CTok → String
  | [] => ""
  | .text v _ :: rest => v ++ renderCTokens h ctx st rest
  | .expr c _ :: rest =>
    renderExprToken h (mergeEnv ctx st) c ++ renderCTokens h ctx st rest

/-- `_render_choice_text`: old string format passes through unchanged, the
tokenized format is rendered against the current state. -/
def renderChoiceText (h : Host) (ctx st : Env) (c : PChoice) : PChoice :=
  match c.text with
  | .s _ => c
  | .toks ts => { c with text := .s (renderCTokens h ctx st ts) }

/-- The render configuration fixed at engine construction. -/
structure RCtx where
  context : Env
  evaluateDirectives : Bool

/-- The `(state, text, jump_target, directives)` result of one
`_render_content` walk. -/
structure RendRes where
  st : Env
  text : String
  jmp : Option String
  dirs : List DirItem
deriving DecidableEq

/-- The two shapes `_render_loop` can return: the normal 3-tuple, or the
2-tuple `(error_msg, None)` its `except` handler returns — which the
3-variable unpacking at every call site turns into a `ValueError`. -/
inductive LoopRes where
  | ok (r : RendRes) : LoopRes
  | errPair (msg : String) : LoopRes
deriving DecidableEq

/-- `(variable, original value)` bookkeeping plus assignment for one loop
iteration (`original_values` collection and the loop-variable stores). -/
def assignLoopVars (st : Env) (vars : List String) (isTuple : Bool)
    (varName : String) (item : Value) : Env × List (String × Option Value) :=
  if isTuple then
    vars.enum.foldl
      (fun acc iv =>
        let origEntry := (iv.2, envGet acc.1 iv.2)
        let val : Value :=
          match item with
          | .list xs => if h : iv.1 < xs.length then xs.get ⟨iv.1, h⟩ else Value.none
          | _ => Value.none
        (envSet acc.1 iv.2 val, acc.2 ++ [origEntry]))
      (st, [])
  else (envSet st varName item, [(varName, envGet st varName)])

/-- Restore of the saved loop-variable values after one iteration.  A saved
Python `None` is indistinguishable from "was absent" (`state.get(var)`), so
both delete the binding — the source's save/restore slip is preserved. -/
def restoreLoopVars (st : Env) (orig : List (String × Option Value)) : Env :=
  orig.foldl
    (fun acc vo =>
      match vo.2 with
      | some w =>
        if w = Value.none then (if envHas acc vo.1 then envDel acc vo.1 else acc)
        else envSet acc vo.1 w
      | Option.none => if envHas acc vo.1 then envDel acc vo.1 else acc)
    st

/-- The collection of items `_render_loop` iterates over: evaluation of the
collection expression against the entry snapshot, then host iteration; the
empty-field guard (`if not variable or not collection_expr`) is handled by
the wrapper receiving `.ok []` there. -/
def loopItems (h : Host) (rc : RCtx) (st : Env) (varName coll : String) :
    Except EvalErr (List Value) :=
  if varName = "" ∨ coll = "" then .ok []
  else
    match h.evalStr coll (mergeEnv rc.context st) with
    | .error e => .error e
    | .ok cv => h.pyIter cv

mutual

/-- Nesting depth of one content token (strictly larger than its nested
subtrees' depths): the measure that makes the depth-budgeted render driver
total. -/
def tokenDepth : Token → Nat
  | .conditional bs => 1 + branchesDepth bs
  | .forLoop _ _ content _ => 1 + tokensDepth content
  | _ => 1

/-- Maximum nesting depth of a token list. -/
def tokensDepth : List Token → Nat
  | [] => 0
  | t :: ts => max (tokenDepth t) (tokensDepth ts)

/-- Maximum nesting depth of a conditional's branch bodies. -/
def branchesDepth : List (String × List Token × List PChoice) → Nat
  | [] => 0
  | (_, c, _) :: bs => max (tokensDepth c) (branchesDepth bs)

end

/-- `_render_conditional`: evaluate branch conditions in order against the
entry snapshot of `\x7b**context, **state\x7d`; the first truthy branch is
rendered (its raw choice dicts appended as `choice` directives); a failed
condition is skipped with a warning.  `deeper` is the renderer for the
strictly nested branch bodies. -/
def renderBranches (h : Host)
    (deeper : Env → List Token → Except PyErr RendRes) (snap : Env) :
    Env → List (String × List Token × List PChoice) → Except PyErr RendRes
  | st, [] => .ok ⟨st, "", Option.none, []⟩
  | st, (cond, content, chs) :: rest =>
    match h.evalStr cond snap with
    | .error _ => renderBranches h deeper snap st rest
    | .ok v =>
      if h.pyBool v then
        match deeper st content with
        | .error e => .error e
        | .ok r => .ok ⟨r.st, r.text, r.jmp, r.dirs ++ chs.map DirItem.choiceD⟩
      else renderBranches h deeper snap st rest

/-- The per-item iteration of `_render_loop`: assign the loop variable(s)
saving prior values, render the body (`deeper`), render the loop's choices
while the loop variable is in scope, restore, and stop early on a jump.
Text pieces are accumulated as the `result` list (joined with `""` by the
wrapper); a fatal body error is caught by the loop's `except` handler and
becomes the 2-tuple return. -/
def renderItems (h : Host) (rc : RCtx)
    (deeper : Env → List Token → Except PyErr RendRes)
    (varName : String) (vars : List String) (isTuple : Bool)
    (content : List Token) (choices : List PChoice) :
    Env → List Value → LoopRes
  | st, [] => .ok ⟨st, "", Option.none, []⟩
  | st, item :: restItems =>
    let assigned := assignLoopVars st vars isTuple varName item
    match deeper assigned.1 content with
    | .error e => .errPair ("\x7bERROR: Loop failed - " ++ e.msgOf ++ "\x7d")
    | .ok r =>
      let chDirs := choices.map (fun c => DirItem.choiceD (renderChoiceText h rc.context r.st c))
      let st2 := restoreLoopVars r.st assigned.2
      match r.jmp with
      | some t => .ok ⟨st2, r.text, some t, r.dirs ++ chDirs⟩
      | Option.none =>
        match renderItems h rc deeper varName vars isTuple content choices st2 restItems with
        | .errPair m => .errPair m
        | .ok r2 => .ok ⟨r2.st, r.text ++ r2.text, r2.jmp, (r.dirs ++ chDirs) ++ r2.dirs⟩

/-- One level of the `_render_content` tree walk producing
`(text, jump_target, directives)` while threading the mutable variable
state.  A jump anywhere truncates the remaining siblings; embedded script
errors propagate (fatal); `set_var` / `expression_statement` tokens have no
dispatch arm and are skipped.  Recursion at this level is structural on the
token list; `deeper` renders the strictly nested subtrees (conditional
branch bodies and loop bodies). -/
def renderTokens (h : Host) (rc : RCtx)
    (deeper : Env → List Token → Except PyErr RendRes) :
    Env → List Token → Except PyErr RendRes
  | st, [] => .ok ⟨st, "", Option.none, []⟩
  | st, .text v _ :: rest =>
    match renderTokens h rc deeper st rest with
    | .ok r => .ok ⟨r.st, v ++ r.text, r.jmp, r.dirs⟩
    | .error e => .error e
  | st, .expr code _ :: rest =>
    let piece := renderExprToken h (mergeEnv rc.context st) code
    match renderTokens h rc deeper st rest with
    | .ok r => .ok ⟨r.st, piece ++ r.text, r.jmp, r.dirs⟩
    | .error e => .error e
  | st, .renderDir d :: rest =>
    let pd := processRenderDirective h rc.context st rc.evaluateDirectives d
    match renderTokens h rc deeper st rest with
    | .ok r => .ok ⟨r.st, r.text, r.jmp, DirItem.renderD pd :: r.dirs⟩
    | .error e => .error e
  | st, .inputDir d :: rest =>
    match renderTokens h rc deeper st rest with
    | .ok r => .ok ⟨r.st, r.text, r.jmp, DirItem.inputD d :: r.dirs⟩
    | .error e => .error e
  | st, .pythonBlock code :: rest =>
    match executePythonBlock h rc.context st code with
    | .error e => .error e
    | .ok st' =>
      match renderTokens h rc deeper st' rest with
      | .ok r => .ok r
      | .error e => .error e
  | st, .setVar _ _ :: rest => renderTokens h rc deeper st rest
  | st, .exprStmt _ :: rest => renderTokens h rc deeper st rest
  | st, .conditional bs :: rest =>
    match renderBranches h deeper (mergeEnv rc.context st) st bs with
    | .error e => .error e
    | .ok r =>
      match r.jmp with
      | some t => .ok ⟨r.st, r.text, some t, r.dirs⟩
      | Option.none =>
        match renderTokens h rc deeper r.st rest with
        | .ok r2 => .ok ⟨r2.st, r.text ++ r2.text, r2.jmp, r.dirs ++ r2.dirs⟩
        | .error e => .error e
  | st, .forLoop varName coll content choices :: rest =>
    let lr : LoopRes :=
      match loopItems h rc st varName coll with
      | .error e => .errPair ("\x7bERROR: Loop failed - " ++ e.msg ++ "\x7d")
      | .ok items =>
        renderItems h rc deeper varName ((pySplit varName ",").map pyStrip)
          (decide (1 < ((pySplit varName ",").map pyStrip).length)) content choices st items
    match lr with
    | .errPair _ =>
      -- caller unpacks the handler's 2-tuple into three variables
      .error (.valueError "not enough values to unpack (expected 3, got 2)")
    | .ok r =>
      match r.jmp with
      | some t => .ok ⟨r.st, r.text, some t, r.dirs⟩
      | Option.none =>
        match renderTokens h rc deeper r.st rest with
        | .ok r2 => .ok ⟨r2.st, r.text ++ r2.text, r2.jmp, r.dirs ++ r2.dirs⟩
        | .error e => .error e
  | st, .jump target :: _ => .ok ⟨st, "", some target, []⟩

/-- Depth-budgeted driver for the render walk: the budget decreases exactly
when descending into a strictly smaller subtree, so any budget exceeding the
nesting depth — in particular `tokensDepth ts + 1` — is sufficient, and the
`renderDepth` marker is an unreachable embedding artifact on the engine's
own calls. -/
def renderBody (h : Host) (rc : RCtx) : Nat → Env → List Token → Except PyErr RendRes
  | 0, _, _ => .error .renderDepth
  | d + 1, st, ts => renderTokens h rc (renderBody h rc d) st ts

/-- `_render_content`: the recursive tree walk, run with an always-sufficient
depth budget. -/
def renderContent (h : Host) (rc : RCtx) (st : Env) (ts : List Token) :
    Except PyErr RendRes :=
  renderBody h rc (tokensDepth ts + 1) st ts

/-- `_render_passage`: render the content tree, partition the collected
directives by their `type` tag, merge conditional/loop choice directives
with the passage-level choices, filter and render them against the current
state, and append passage-level input directives. -/
def renderPassage (h : Host) (rc : RCtx) (used : List String) (curPid : Option String)
    (passages : List (String × Passage)) (pid : String) (st : Env) :
    Except PyErr (Env × PassageOutput) :=
  match passages.lookup pid with
  | Option.none => .error (.valueError ("Passage " ++ sq ++ pid ++ sq ++ " not found."))
  | some p =>
    match renderContent h rc st p.content with
    | .error e => .error e
    | .ok r =>
      let choiceDirs := r.dirs.filterMap
        (fun d => match d with | .choiceD c => some c | _ => Option.none)
      let inputDirs := r.dirs.filterMap
        (fun d => match d with | .inputD d => some d | _ => Option.none)
      let renderDirs := r.dirs.filterMap
        (fun d => match d with | .renderD d => some d | _ => Option.none)
      let allChoices := p.choices ++ choiceDirs
      let avail :=
        (allChoices.filter (fun c => isChoiceAvailable h rc.context r.st used curPid c)).map
          (fun c => renderChoiceText h rc.context r.st c)
      .ok (r.st,
        { content := r.text, choices := avail, passageId := pid,
          renderDirectives := renderDirs,
          inputDirectives := inputDirs ++ p.inputDirectives,
          jumpTarget := r.jmp })

/-- The jump-following `while True` loop inside `goto`, with explicit fuel.
Each pass: cycle check against `visited`, add the passage, set it current,
execute its commands once, render it, accumulate non-empty content and the
render directives, and follow a reported jump; without a jump the combined
output (double-newline-joined text, last passage's choices and input
directives, all render directives) is final. -/
def gotoLoop (h : Host) (doc : Document) (rc : RCtx) (used : List String) :
    Env → List String → List String → List RenderedDirective → String → Nat →
    Except PyErr (Env × PassageOutput)
  | _, _, _, _, _, 0 => .error .fuelExhausted
  | st, visited, accC, accD, current, fuel + 1 =>
    if current ∈ visited then
      .error (.runtimeError
        ("Jump loop detected: " ++ pyJoin " -> " (visited ++ [current])))
    else
      match executePassage h rc.context doc.passages current st with
      | .error e => .error e
      | .ok st1 =>
        match renderPassage h rc used (some current) doc.passages current st1 with
        | .error e => .error e
        | .ok (st2, out) =>
          let accC2 := if out.content ≠ "" then accC ++ [out.content] else accC
          let accD2 := accD ++ out.renderDirectives
          match out.jumpTarget with
          | some t => gotoLoop h doc rc used st2 (visited ++ [current]) accC2 accD2 t fuel
          | Option.none =>
            .ok (st2,
              { content := pyJoin "\n\n" accC2,
                choices := out.choices, passageId := out.passageId,
                renderDirectives := accD2, inputDirectives := out.inputDirectives,
                jumpTarget := Option.none })

/-- The fuel that realises the unbounded source loop: one pass per passage
plus one (sufficient — see the termination theorem for the claim that the
loop never runs out). -/
def gotoFuel (doc : Document) : Nat := doc.passages.length + 1

/-- `goto`: navigate, follow jumps, cache and return the final output. -/
def goto (h : Host) (e : Engine) (pid : String) : Except PyErr (Engine × PassageOutput) :=
  if (e.doc.passages.lookup pid).isNone then
    .error (.valueError ("Cannot navigate to unknown passage: " ++ sq ++ pid ++ sq))
  else
    match gotoLoop h e.doc ⟨e.context, e.evaluateDirectives⟩ e.usedChoices
        e.state [] [] [] pid (gotoFuel e.doc) with
    | .error er => .error er
    | .ok (st, out) =>
      let e2 := { e with
        state := st
        currentPassageId := some out.passageId
        currentOutput := some out }
      .ok (e2, out)

/-- `current()`: a pure read of the cached output (the source `assert`s the
cache is set). -/
def currentOut (e : Engine) : Except PyErr PassageOutput :=
  match e.currentOutput with
  | Option.none => .error .assertionError
  | some o => .ok o

/-- `choose`: index into the cached filtered choice list, record a one-time
choice's identity before navigating, then `goto` its target. -/
def choose (h : Host) (e : Engine) (choiceIndex : Int) : Except PyErr (Engine × PassageOutput) :=
  match e.currentOutput with
  | Option.none => .error .assertionError
  | some out =>
    if choiceIndex < 0 ∨ (out.choices.length : Int) ≤ choiceIndex then
      .error (.indexError ("Choice index out of range"))
    else
      match out.choices.get? choiceIndex.toNat with
      | Option.none => .error (.indexError ("Choice index out of range"))
      | some c =>
        let e1 :=
          if c.sticky then e
          else
            let cid := choiceId (some out.passageId) c.text c.target
            { e with usedChoices :=
                if cid ∈ e.usedChoices then e.usedChoices else e.usedChoices ++ [cid] }
        goto h e1 c.target

/-- `reset_one_time_choices`. -/
def resetOneTimeChoices (e : Engine) : Engine :=
  { e with usedChoices := [] }

/-- `_serialize_value`.  On the modelled value universe (JSON primitives,
lists, string-keyed dicts; no classes, no objects with `to_save_dict` or
`__dict__`) the `json.dumps` probe of Priority 2 always succeeds, so the
function returns its argument unchanged. -/
def serializeValue (v : Value) : Value := v

/-- `_serialize_state`. -/
def serializeState (st : Env) : Env :=
  st.map (fun kv => (kv.1, serializeValue kv.2))

mutual

/-- Nesting depth of a value (strictly larger than any member's depth):
the measure that makes the depth-budgeted deserializer total. -/
def valueDepth : Value → Nat
  | .none => 0
  | .bool _ => 0
  | .int _ => 0
  | .str _ => 0
  | .list xs => 1 + valuesDepth xs
  | .dict kvs => 1 + kvsDepth kvs

/-- Maximum nesting depth of a list's elements. -/
def valuesDepth : List Value → Nat
  | [] => 0
  | v :: vs => max (valueDepth v) (valuesDepth vs)

/-- Maximum nesting depth of a dict's values. -/
def kvsDepth : List (String × Value) → Nat
  | [] => 0
  | kv :: kvs => max (valueDepth kv.2) (kvsDepth kvs)

end

/-- Depth-budgeted body of `_deserialize_value`: the budget decreases on
every descent into a member, so any budget above the value's nesting depth
— in particular `valueDepth v + 1` — is sufficient; the zero-budget arm
(return the value unchanged) is an unreachable embedding artifact. -/
def deserBody (h : Host) (ctx : Env) : Nat → Value → Value
  | 0, v => v
  | d + 1, v =>
    match v with
    | .none => .none
    | .bool b => .bool b
    | .int n => .int n
    | .str s => .str s
    | .list xs => .list (xs.map (deserBody h ctx d))
    | .dict kvs =>
      match envGet kvs "_type" with
      | Option.none =>
        .dict (kvs.map (fun kv => (kv.1, deserBody h ctx d kv.2)))
      | some tv =>
        match envGet kvs "_data" with
        | Option.none =>
          -- `value.get("_data", {})`: recursing through the empty dict
          match tv with
          | .str t =>
            if t = "string_repr" then (envGet kvs "_value").getD (.str "")
            else if envHas ctx t then h.deserializeObj t (.dict [])
            else .dict []
          | _ => .dict []
        | some objData =>
          match tv with
          | .str t =>
            if t = "string_repr" then (envGet kvs "_value").getD (.str "")
            else if envHas ctx t then h.deserializeObj t objData
            else
              match objData with
              | .dict ds =>
                .dict (ds.map (fun kv => (kv.1, deserBody h ctx d kv.2)))
              | other => other
          | _ =>
            -- a non-string `_type` is never a context key: recurse through data
            match objData with
            | .dict ds =>
              .dict (ds.map (fun kv => (kv.1, deserBody h ctx d kv.2)))
            | other => other

/-- `_deserialize_value`: primitives pass through, collections recurse,
dicts carrying a `_type` tag are reconstructed (`string_repr` unwraps, an
unregistered type recurses through `_data`, a registered class goes to the
host's `from_save_dict` / `__new__` machinery — reconstructed objects are
outside the modelled value universe, hence a host capability).  Run with an
always-sufficient depth budget. -/
def deserializeValue (h : Host) (ctx : Env) (v : Value) : Value :=
  deserBody h ctx (valueDepth v + 1) v

/-- `_deserialize_state`. -/
def deserializeState (h : Host) (ctx : Env) (st : Env) : Env :=
  st.map (fun kv => (kv.1, deserializeValue h ctx kv.2))

/-- `save_state`: the JSON-safe snapshot. -/
def saveState (h : Host) (e : Engine) : SaveData :=
  let md := e.doc.metadata
  { version := some "0.1.0",
    storyVersion := (md.lookup "version").getD "unknown",
    storyName := (md.lookup "title").getD "unknown",
    storyId := (md.lookup "story_id").getD "unknown",
    timestamp := h.timestamp,
    currentPassageId := e.currentPassageId,
    state := serializeState e.state,
    usedChoices := e.usedChoices,
    metaPassageCount := e.doc.passages.length,
    metaInitialPassage := e.doc.initialPassage }

/-- `load_state`: validate the save format version and target passage
existence, restore `variables` / `used_choices`, then `goto` the saved
passage (deliberately re-running its `execute` commands).  Story id / name
mismatches only print warnings in the source and have no state effect. -/
def loadState (h : Host) (e : Engine) (sd : SaveData) : Except PyErr (Engine × PassageOutput) :=
  match sd.version with
  | Option.none => .error (.valueError "Save data missing version field")
  | some _ =>
    let target := sd.currentPassageId.getD "Start"
    if (e.doc.passages.lookup target).isNone then
      .error (.valueError ("Save data references unknown passage: " ++ sq ++ target ++ sq))
    else
      let e1 := { e with state := deserializeState h e.context sd.state,
                         usedChoices := sd.usedChoices }
      goto h e1 target

/-- `_execute_imports`: join the import statements and run them through the
host, copying non-underscore bindings into state.  (Auto-registration of
classes into context has no effect in the modelled value universe, which
holds no class objects.) -/
def executeImports (h : Host) (stmts : List String) (st ctx : Env) :
    Except PyErr (Env × Env) :=
  if stmts.isEmpty then .ok (st, ctx)
  else
    let importCode := pyJoin "\n" stmts
    if pyStrip importCode = "" then .ok (st, ctx)
    else
      match h.execImports importCode with
      | .ok ns =>
        .ok (ns.foldl
          (fun acc kv =>
            if pyStartsWith kv.1 "_" then acc else (envSet acc.1 kv.1 kv.2, acc.2))
          (st, ctx))
      | .error e => .error (.runtimeError ("Error executing imports: " ++ e.msg))

/-- `BardEngine.__init__`: initialise state with the `_inputs` dict,
execute imports, validate the initial passage (both checks precede any
navigation), then `goto` it. -/
def initEngine (h : Host) (doc : Document) (ctx : Env) (ed : Bool) :
    Except PyErr (Engine × PassageOutput) :=
  let st0 : Env := [("_inputs", .dict [])]
  match executeImports h doc.imports st0 ctx with
  | .error e => .error e
  | .ok (st1, ctx1) =>
    if doc.initialPassage = "" then .error (.valueError "Story has no initial passage.")
    else if (doc.passages.lookup doc.initialPassage).isNone then
      .error (.valueError
        ("Initial passage " ++ sq ++ doc.initialPassage ++ sq ++ " not found in story."))
    else
      goto h
        { doc := doc, currentPassageId := Option.none, state := st1, usedChoices := [],
          context := ctx1, evaluateDirectives := ed, currentOutput := Option.none }
        doc.initialPassage

/-! ## Compiler front-end (`src/bardic/compiler/parsing/`, with the
same-named helpers of `src/bardic/compiler/parser.py` where the refactored
module is not in the tree) -/

/-- A compile-time error.  Structured constructors stand for the
`SyntaxError(format_error(...))` / `ValueError(message)` raises of the
source; each carries the data the formatted message is built from (the
0-indexed source line where one is named). -/
inductive PErr where
  | valueError (msg : String) : PErr
  | unclosedBlock (kind : String) (openLine : Nat) : PErr
  | duplicatePassages (dups : List (String × List Nat)) : PErr
  | missingColon (kind : String) (line : Nat) : PErr
  | closerColonTypo (kind : String) (line : Nat) : PErr
  | unboundLocalCondition (line : Nat) : PErr
  | syntaxError (msg : String) (line : Nat) : PErr
  | invalidLoop (msg : String) : PErr
  | internalError (line : Nat) : PErr
  | fuelExhausted : PErr
deriving Repr, DecidableEq

/-- Modelled from the spec: `strip_inline_comment` lives in the
`parsing/preprocessing` module that is not in the tree.  The spec says the
pre-pass "strips inline comments (`// ...`)" from directive / choice /
assignment / content lines; callers use it as
`code, _ = strip_inline_comment(code)`.  Modelled as splitting at the
first `//`, returning the right-trimmed code and the comment. -/
def stripInlineComment (s : String) : String × String :=
  match pySplit s "//" with
  | [] => (s, "")
  | [only] => (only, "")
  | first :: rest => (pyRStrip first, pyJoin "//" rest)

/-- `\w` of the tag / identifier regexes (ASCII fragment). -/
def isWordChar (c : Char) : Bool :=
  c.isAlphanum ∨ c = '_'

/-- `[\w-]` of the tag-parameter regex. -/
def isTagParamChar (c : Char) : Bool :=
  isWordChar c ∨ c = '-'

/-- `[\w.]` of the jump / choice target regexes. -/
def isWordDotChar (c : Char) : Bool :=
  isWordChar c ∨ c = '.'

/-- `re.findall` of the tag pattern `\^[\w]+(?::[\w-]+)?`: maximal word
run after each `^`, with an optional maximal `:param` suffix,
non-overlapping left to right.  (Fuel bounds the scan by the text length;
it never runs out since every step consumes at least one character.) -/
def findTagsAux : Nat → List Char → List String
  | 0, _ => []
  | _, [] => []
  | fuel + 1, c :: rest =>
    if c = '^' then
      let w := rest.takeWhile isWordChar
      if w.isEmpty then findTagsAux fuel rest
      else
        match rest.drop w.length with
        | ':' :: r2 =>
          let p := r2.takeWhile isTagParamChar
          if p.isEmpty then ("^" ++ String.mk w) :: findTagsAux fuel (':' :: r2)
          else ("^" ++ String.mk w ++ ":" ++ String.mk p)
            :: findTagsAux fuel (r2.drop p.length)
        | other => ("^" ++ String.mk w) :: findTagsAux fuel other
    else findTagsAux fuel rest

/-- Tag scan over a whole line. -/
def findTags (cs : List Char) : List String :=
  findTagsAux (cs.length + 1) cs

/-- Replace the first occurrence of `pat` in `s` by the empty string
(`str.replace(tag, "", 1)`). -/
def replaceFirst (s pat : String) : String :=
  match pySplit s pat with
  | [] => s
  | [only] => only
  | first :: rest => first ++ pyJoin pat rest

/-- `parse_tags`: find all tags, remove each once, right-strip, and strip
the `^` prefix from the tags. -/
def parseTags (line : String) : String × List String :=
  let tags := findTags line.toList
  if tags.isEmpty then (line, [])
  else
    let lineWithout := pyRStrip (tags.foldl (fun acc t => replaceFirst acc t) line)
    (lineWithout, tags.map (fun t => pyDrop t 1))

/-- The `re.split(r"(\{[^}]+\})", ...)` scanner: each `\x7b...\x7d` span
with at least one non-`\x7d` character inside becomes an expression piece;
everything else is literal text (a bare `\x7b` with no closer, or an empty
pair, stays text).  Fuel as in `findTagsAux`. -/
def splitInterpAux : Nat → List Char → List Char → List (Bool × String)
  | 0, acc, _ => if acc.isEmpty then [] else [(false, String.mk acc.reverse)]
  | _, acc, [] => if acc.isEmpty then [] else [(false, String.mk acc.reverse)]
  | fuel + 1, acc, c :: rest =>
    if c = '{' then
      let inner := rest.takeWhile (fun ch => ch ≠ '}')
      if inner.length = rest.length ∨ inner.isEmpty then
        splitInterpAux fuel (c :: acc) rest
      else
        (if acc.isEmpty then [] else [(false, String.mk acc.reverse)])
          ++ (true, String.mk inner) :: splitInterpAux fuel [] (rest.drop (inner.length + 1))
    else splitInterpAux fuel (c :: acc) rest

/-- Interpolation split over a whole line. -/
def splitInterp (cs : List Char) : List (Bool × String) :=
  splitInterpAux (cs.length + 1) [] cs

/-- Attach a tag list to a token (`tokens[-1]["tags"] = tags`). -/
def attachTags (t : CTok) (tags : List String) : CTok :=
  match t with
  | .text v _ => .text v (some tags)
  | .expr c _ => .expr c (some tags)

/-- `parse_content_line` (`parsing/content.py`): strip the inline comment,
strip tags, split on interpolation spans, and attach the tags to the last
token. -/
def parseContentLine (line : String) : List CTok :=
  let stripped := (stripInlineComment line).1
  let tagged := parseTags stripped
  let toks := (splitInterp tagged.1.toList).map
    (fun p => if p.1 then CTok.expr p.2 Option.none else CTok.text p.2 Option.none)
  match toks.getLast? with
  | some last => if tagged.2 ≠ [] then toks.dropLast ++ [attachTags last tagged.2] else toks
  | Option.none => toks

/-- `\s*->\s*([\w.]+)` after a choice's closing bracket (`re.match` does
not anchor the end, so trailing text is allowed). -/
def matchArrowTarget (cs : List Char) : Option String :=
  let cs1 := cs.dropWhile (fun c => c.isWhitespace)
  match cs1 with
  | '-' :: '>' :: cs2 =>
    let cs3 := cs2.dropWhile (fun c => c.isWhitespace)
    let t := cs3.takeWhile isWordDotChar
    if t.isEmpty then Option.none else some (String.mk t)
  | _ => Option.none

/-- The lazy `\[(.*?)\]` with backtracking: the display text ends at the
first `]` whose remainder matches the arrow-and-target pattern. -/
def matchChoiceBody (acc : List Char) : List Char → Option (String × String)
  | [] => Option.none
  | c :: rest =>
    if c = ']' then
      match matchArrowTarget rest with
      | some t => some (String.mk acc.reverse, t)
      | Option.none => matchChoiceBody (c :: acc) rest
    else matchChoiceBody (c :: acc) rest

/-- `parse_choice_line` (`parsing/content.py`): strip the inline comment,
strip tags, read the `+ ` / `* ` marker, then match
`\{([^}]+)\}\s*\[(.*?)\]\s*->\s*([\w.]+)` (with a leading condition) or
`\[(.*?)\]\s*->\s*([\w.]+)`; the display text is tokenized for
interpolation. -/
def parseChoiceLine (line : String) : Option PChoice :=
  let l1 := (stripInlineComment line).1
  let tagged := parseTags l1
  let lw := tagged.1
  let marker : Option (Bool × String) :=
    if pyStartsWith lw "+ " then some (true, pyStrip (pyDrop lw 2))
    else if pyStartsWith lw "* " then some (false, pyStrip (pyDrop lw 2))
    else Option.none
  match marker with
  | Option.none => Option.none
  | some (sticky, choiceLine) =>
    match choiceLine.toList with
    | '{' :: afterBrace =>
      let cond := afterBrace.takeWhile (fun ch => ch ≠ '}')
      if cond.isEmpty then Option.none
      else
        match afterBrace.drop cond.length with
        | '}' :: afterCond =>
          match (afterCond.dropWhile (fun c => c.isWhitespace)) with
          | '[' :: body =>
            match matchChoiceBody [] body with
            | some (text, target) =>
              some { text := .toks (parseContentLine text), target := target,
                     condition := some (String.mk cond), sticky := sticky,
                     tags := tagged.2 }
            | Option.none => Option.none
          | _ => Option.none
        | _ => Option.none
    | '[' :: body =>
      match matchChoiceBody [] body with
      | some (text, target) =>
        some { text := .toks (parseContentLine text), target := target,
               condition := Option.none, sticky := sticky, tags := tagged.2 }
      | Option.none => Option.none
    | _ => Option.none

/-- `parse_render_directive`: `^(\w+)(?:\((.*)\))?$` — a word-run name,
optionally followed by a parenthesised argument string that must close at
the end of the line (the greedy `(.*)` reaches the final character). -/
def parseRenderDirective (directiveStr : String) : Option RenderTok :=
  let d := pyStrip directiveStr
  let cs := d.toList
  let name := cs.takeWhile isWordChar
  if name.isEmpty then Option.none
  else
    match cs.drop name.length with
    | [] => some { name := String.mk name, args := "", frameworkHint := Option.none }
    | '(' :: r2 =>
      if r2.getLast? = some ')' then
        some { name := String.mk name, args := pyStrip (String.mk r2.dropLast),
               frameworkHint := Option.none }
      else Option.none
    | _ => Option.none

/-- `parse_render_line` (`parser.py`): `@render` or `@render:framework`
followed by the directive; invalid shapes yield `None` with a printed
warning. -/
def parseRenderLine (line : String) : Option RenderTok :=
  if ¬(pyStartsWith (pyStrip line) "@render") then Option.none
  else
    let afterRender := pyDrop (pyStrip line) 7
    if pyStartsWith afterRender ":" then
      let cs := (pyDrop afterRender 1).data
      let fw := cs.takeWhile isWordChar
      if fw.isEmpty then Option.none
      else
        let rest := cs.drop fw.length
        let ws := rest.takeWhile (fun c => c.isWhitespace)
        if ws.isEmpty then Option.none
        else
          let dstr := rest.drop ws.length
          if dstr.isEmpty then Option.none
          else
            match parseRenderDirective (String.mk dstr) with
            | some d => some { d with frameworkHint := some (String.mk fw) }
            | Option.none => Option.none
    else if pyStrip afterRender ≠ "" then
      parseRenderDirective (pyStrip afterRender)
    else Option.none

/-- `str.title()` after `replace("_", " ")`, as used for the default input
label: capitalise each space-separated word. -/
def pyTitleWords (s : String) : String :=
  pyJoin " "
    ((pySplit s " ").map (fun w =>
      match w.toList with
      | [] => ""
      | c :: rest => String.mk (c.toUpper :: (rest.map Char.toLower))))

/-- `re.findall(r'(\w+)="([^"]*)"', ...)`: the `key="value"` attribute
pairs of an `@input` line, non-overlapping left to right. -/
def findAttrsAux : Nat → List Char → List (String × String)
  | 0, _ => []
  | _, [] => []
  | fuel + 1, c :: rest =>
    if isWordChar c then
      let w := (c :: rest).takeWhile isWordChar
      match (c :: rest).drop w.length with
      | '=' :: '"' :: r2 =>
        let v := r2.takeWhile (fun ch => ch ≠ '"')
        if v.length = r2.length then findAttrsAux fuel rest
        else (String.mk w, String.mk v) :: findAttrsAux fuel (r2.drop (v.length + 1))
      | _ => findAttrsAux fuel rest
    else findAttrsAux fuel rest

/-- `parse_input_line` (`parser.py`): collect `key="value"` attributes
(later duplicates override), require `name`, and default `label` (titled
name) and `placeholder` (empty). -/
def parseInputLine (line : String) : Option InputTok :=
  if ¬(pyStartsWith (pyStrip line) "@input") then Option.none
  else
    let afterInput := pyStrip (pyDrop (pyStrip line) 6)
    if afterInput = "" then Option.none
    else
      let attrs := findAttrsAux (afterInput.length + 1) afterInput.toList
      let spec : List (String × String) :=
        attrs.foldl (fun acc kv =>
          if acc.any (fun p => p.1 = kv.1)
          then acc.map (fun p => if p.1 = kv.1 then kv else p)
          else acc ++ [kv]) []
      match spec.lookup "name" with
      | Option.none => Option.none
      | some nm =>
        some { name := nm,
               label := (spec.lookup "label").getD (pyTitleWords (pyReplace nm "_" " ")),
               placeholder := (spec.lookup "placeholder").getD "" }

/-- One line of the bracket-depth scan of `extract_multiline_expression`:
push opens, pop matching closes, and stop at the first mismatched close
(the source `break`s out of the character loop there). -/
def scanBrackets : List Char → List Char → List Char
  | stack, [] => stack
  | stack, c :: rest =>
    if c = '(' ∨ c = '[' ∨ c = '{' then scanBrackets (c :: stack) rest
    else if c = ')' ∨ c = ']' ∨ c = '}' then
      match stack with
      | top :: stTail =>
        let want : Char := if c = ')' then '(' else if c = ']' then '[' else '{'
        if top = want then scanBrackets stTail rest else stack
      | [] => stack
    else scanBrackets stack rest

/-- The line-consuming loop of `extract_multiline_expression`. -/
def multilineLoop : List Char → List String → List String → (List String × Nat)
  | _, [], acc => (acc, 0)
  | stack, line :: rest, acc =>
    let stack2 := scanBrackets stack line.toList
    let acc2 := acc ++ [line]
    if stack2.isEmpty then (acc2, 1)
    else
      let r := multilineLoop stack2 rest acc2
      (r.1, r.2 + 1)

/-- `extract_multiline_expression` (`parser.py`): when the first line's
expression ends with an opening bracket, consume further lines by
bracket-depth scanning (only the opening brackets of the first line are
pushed) and join them with newlines. -/
def extractMultilineExpression (lines : List String) (startIndex : Nat)
    (initialExpr : String) : String × Nat :=
  let stripped := pyStrip initialExpr
  let lastC := stripped.data.getLast?
  if ¬(lastC = some '[' ∨ lastC = some '{' ∨ lastC = some '(') then
    (initialExpr, 1)
  else
    let stack0 := (stripped.data.filter (fun c => c = '(' ∨ c = '[' ∨ c = '{')).reverse
    let r := multilineLoop stack0 (lines.drop (startIndex + 1)) [initialExpr]
    (pyJoin "\n" r.1, r.2 + 1)

/-- `detect_and_strip_indentation` (shared dedent rule): base indentation
of the first non-blank line, stripped exactly from every line at least as
indented; blank lines and shallower lines pass through. -/
def detectAndStripIndentation (lines : List String) : List String :=
  match lines.find? (fun l => pyStrip l ≠ "") with
  | Option.none => lines
  | some l0 =>
    let baseIndent := l0.length - (pyLStrip l0).length
    lines.map (fun line =>
      if pyStrip line = "" then line
      else
        let leading := line.length - (pyLStrip line).length
        if baseIndent ≤ leading then pyDrop line baseIndent else line)

/-- A compiled conditional branch `(condition, content, choices)`. -/
abbrev BranchT := String × List Token × List PChoice

/-- Line-token to content-token conversion (the source uses the same dicts
in both places). -/
def ctokToToken : CTok → Token
  | .text v t => .text v t
  | .expr c t => .expr c t

/-- One collected raw line flushed without glue handling (the mid-loop
flushes of `extract_conditional_block` append a newline token after every
line). -/
def lineToksPlain (line : String) : List Token :=
  (parseContentLine line).map ctokToToken ++ [Token.text "\n" Option.none]

/-- One collected raw line flushed with glue handling (the branch
finalisers check for the `<>` suffix and suppress the following
newline). -/
def lineToksGlue (line : String) : List Token :=
  if pyEndsWith (pyRStrip line) "<>" then
    (parseContentLine (pyDropRight (pyRStrip line) 2)).map ctokToToken
  else lineToksPlain line

/-- Dedent and tokenize the pending raw lines, without glue handling. -/
def flushPlain (blines : List String) : List Token :=
  ((detectAndStripIndentation blines).map lineToksPlain).flatten

/-- Dedent and tokenize the pending raw lines, with glue handling. -/
def flushGlue (blines : List String) : List Token :=
  ((detectAndStripIndentation blines).map lineToksGlue).flatten

/-- The augmented-assignment operator search of the `~` handler: the first
operator of the fixed list contained in the assignment. -/
def findAugOp (a : String) : Option String :=
  ["//=", "**=", "+=", "-=", "*=", "/=", "%="].find? (fun op => containsSub a op)

/-- `str.split(sep, 1)`: split at the first occurrence. -/
def splitOnce (s pat : String) : String × String :=
  match pySplit s pat with
  | [] => (s, "")
  | [only] => (only, "")
  | first :: rest => (first, pyJoin pat rest)

/-- The token a `~` line inside a conditional branch compiles to:
augmented assignments are desugared (`x op= e` to `x = x op (e)`), plain
assignments split at the first `=`, anything else is an expression
statement. -/
def tildeToken (assignment : String) : Token :=
  match findAugOp assignment with
  | some op =>
    let parts := splitOnce assignment op
    let varName := pyStrip parts.1
    let valueExpr := pyStrip parts.2
    let baseOp := pyDropRight op 1
    .setVar varName (varName ++ " " ++ baseOp ++ " (" ++ valueExpr ++ ")")
  | Option.none =>
    if containsSub assignment "=" then
      let parts := splitOnce assignment "="
      .setVar (pyStrip parts.1) (pyStrip parts.2)
    else .exprStmt assignment

/-- The lazy `(.+?)` up to a two-character marker: the minimal non-empty
prefix followed by the marker. -/
def lazyUpTo2 (m1 m2 : Char) (acc : List Char) : List Char → Option String
  | [] => Option.none
  | c :: rest =>
    let acc2 := c :: acc
    match rest with
    | r1 :: r2 :: _ =>
      if r1 = m1 ∧ r2 = m2 then some (String.mk acc2.reverse)
      else lazyUpTo2 m1 m2 acc2 rest
    | _ => lazyUpTo2 m1 m2 acc2 rest

/-- The lazy `(.+?)` up to a one-character marker. -/
def lazyUpTo1 (m : Char) (acc : List Char) : List Char → Option String
  | [] => Option.none
  | c :: rest =>
    let acc2 := c :: acc
    match rest with
    | r1 :: _ =>
      if r1 = m then some (String.mk acc2.reverse)
      else lazyUpTo1 m acc2 rest
    | _ => lazyUpTo1 m acc2 rest

/-- `re.match(r"<<KEYWORD\s+(.+?)>>", stripped)` for the old block syntax:
whitespace after the keyword, then the lazy condition up to the first
`>>`. -/
def matchOldHeader (keyword : String) (stripped : String) : Option String :=
  if ¬(pyStartsWith stripped ("<<" ++ keyword)) then Option.none
  else
    let rest := (pyDrop stripped (2 + keyword.length)).data
    let ws := rest.takeWhile (fun c => c.isWhitespace)
    if ws.isEmpty then Option.none
    else (lazyUpTo2 '>' '>' [] (rest.drop ws.length)).map (fun c => pyStrip c)

/-- `re.match(r"@KEYWORD\s+(.+?):", stripped)` for the colon block
syntax. -/
def matchColonHeader (keyword : String) (stripped : String) : Option String :=
  if ¬(pyStartsWith stripped ("@" ++ keyword)) then Option.none
  else
    let rest := (pyDrop stripped (1 + keyword.length)).data
    let ws := rest.takeWhile (fun c => c.isWhitespace)
    if ws.isEmpty then Option.none
    else (lazyUpTo1 ':' [] (rest.drop ws.length)).map (fun c => pyStrip c)

/-- The `\s+in\s+` separator probe of the `for` header: greedy whitespace,
the literal `in`, greedy whitespace, then the lazy collection up to the
closer (`>>` or `:`). -/
def forSep (colonClose : Bool) (rest : List Char) : Option String :=
  let ws1 := rest.takeWhile (fun c => c.isWhitespace)
  if ws1.isEmpty then Option.none
  else
    match rest.drop ws1.length with
    | 'i' :: 'n' :: r2 =>
      let ws2 := r2.takeWhile (fun c => c.isWhitespace)
      if ws2.isEmpty then Option.none
      else
        let tail := r2.drop ws2.length
        if colonClose then lazyUpTo1 ':' [] tail else lazyUpTo2 '>' '>' [] tail
    | _ => Option.none

/-- The backtracking over the lazy loop variable of
`(.+?)\s+in\s+(.+?)` : the minimal non-empty variable prefix whose
remainder matches the separator and collection. -/
def forSplitAux (colonClose : Bool) (acc : List Char) : List Char → Option (String × String)
  | [] => Option.none
  | c :: rest =>
    let acc2 := c :: acc
    match forSep colonClose rest with
    | some coll => some (String.mk acc2.reverse, coll)
    | Option.none => forSplitAux colonClose acc2 rest

/-- `re.match(r"<<for\s+(.+?)\s+in\s+(.+?)>>", ...)` or the `@for ... :`
variant: `(variable, collection)`, both stripped. -/
def matchForHeader (colonClose : Bool) (stripped : String) : Option (String × String) :=
  let marker := if colonClose then "@for" else "<<for"
  if ¬(pyStartsWith stripped marker) then Option.none
  else
    let rest := (pyDrop stripped marker.length).data
    let ws := rest.takeWhile (fun c => c.isWhitespace)
    if ws.isEmpty then Option.none
    else
      (forSplitAux colonClose [] (rest.drop ws.length)).map
        (fun p => (pyStrip p.1, pyStrip p.2))

/-- The body collector of `_extract_py_old_syntax`: `(code lines, body
lines processed)`; the closing `>>` line is not part of the body. -/
def pyOldBody : Option Nat → List String → (List String × Nat)
  | _, [] => ([], 0)
  | bi, line :: rest =>
    if pyStrip line = ">>" then ([], 0)
    else
      let bi2 := if bi.isNone ∧ pyStrip line ≠ "" then
          some (line.length - (pyLStrip line).length) else bi
      let adjusted : String :=
        if pyStrip line = "" then ""
        else
          match bi2 with
          | some b => if b ≤ line.length ∧ pyStrip (pyTake line b) = "" then pyDrop line b else line
          | Option.none => line
      let r := pyOldBody bi2 rest
      (adjusted :: r.1, r.2 + 1)

/-- `_extract_py_old_syntax` (`<<py ... >>`): dedent relative to the first
non-blank body line; reaching the end of input without `>>` is not an
error (the count then overshoots the input exactly as the source's
arithmetic does). -/
def extractPyOld (lines : List String) (startIndex : Nat) : String × Nat :=
  let r := pyOldBody Option.none (lines.drop (startIndex + 1))
  (pyJoin "\n" r.1, r.2 + 2)

/-- The body collector of `_extract_py_new_syntax`: `Option.none` when the
end of input is reached before `@endpy`. -/
def pyNewBody : List String → Option (List String × Nat)
  | [] => Option.none
  | line :: rest =>
    if pyStrip line = "@endpy" then some ([], 0)
    else (pyNewBody rest).map (fun r => (line :: r.1, r.2 + 1))

/-- `_extract_py_new_syntax` (`@py: ... @endpy`): the opener must be
exactly `@py:`, the body is kept verbatim, and a missing closer is a
compile error. -/
def extractPyNew (lines : List String) (startIndex : Nat) : Except PErr (String × Nat) :=
  let line := lines.getD startIndex ""
  if pyStrip line ≠ "@py:" then .error (.missingColon "py" startIndex)
  else
    match pyNewBody (lines.drop (startIndex + 1)) with
    | some r => .ok (pyJoin "\n" r.1, r.2 + 2)
    | Option.none => .error (.unclosedBlock "py" startIndex)

/-- `extract_python_block` (`parsing/blocks.py`): dispatch on the two
spellings. -/
def extractPythonBlock (lines : List String) (startIndex : Nat) :
    Except PErr (String × Nat) :=
  let stripped := pyStrip (lines.getD startIndex "")
  if pyStartsWith stripped "<<py" then .ok (extractPyOld lines startIndex)
  else if pyStartsWith stripped "@py" then extractPyNew lines startIndex
  else .error (.valueError "extract_python_block called on non-python line")

/-- `re.match(r"->\s*([\w.]+)", stripped)`: the jump target after the
arrow. -/
def matchJumpTarget (stripped : String) : Option String :=
  if ¬(pyStartsWith stripped "->") then Option.none
  else
    let cs := (pyDrop stripped 2).data.dropWhile (fun c => c.isWhitespace)
    let t := cs.takeWhile isWordDotChar
    if t.isEmpty then Option.none else some (String.mk t)

/-- The mutable cursor state of the `extract_conditional_block` loop. -/
structure CondState where
  branches : List BranchT
  cur : Option BranchT
  blines : List String
  nesting : Nat
  i : Nat

/-- Flush the pending raw lines into the current branch without glue
handling (the mid-loop flush blocks of the source). -/
def condFlushPlain (st : CondState) : CondState :=
  match st.cur with
  | some cur =>
    { st with
      cur := some (cur.1, cur.2.1 ++ flushPlain st.blines, cur.2.2)
      blines := [] }
  | Option.none => st

/-- `finalize_and_start_new_branch`: glue-aware flush of the pending
lines, append the branch, start a fresh one. -/
def condFinalize (st : CondState) (newCond : String) : CondState :=
  match st.cur with
  | some cur =>
    { st with
      branches := st.branches ++ [(cur.1, cur.2.1 ++ flushGlue st.blines, cur.2.2)]
      cur := some (newCond, [], [])
      blines := [] }
  | Option.none => { st with cur := some (newCond, [], []), blines := [] }

/-- Append a token to the current branch's content. -/
def condAppend (st : CondState) (t : Token) : CondState :=
  match st.cur with
  | some cur => { st with cur := some (cur.1, cur.2.1 ++ [t], cur.2.2) }
  | Option.none => st

/-- Append a choice to the current branch. -/
def condAppendChoice (st : CondState) (c : PChoice) : CondState :=
  match st.cur with
  | some cur => { st with cur := some (cur.1, cur.2.1, cur.2.2 ++ [c]) }
  | Option.none => st

/-- The shape of a nested-block extractor: `(lines, startIndex, fuel)`.
The mutually recursive block extractors of `parsing/blocks.py` are tied
together through a nesting-level budget (`extractorsAt`), so each scanner
receives the two extractors for the strictly deeper nesting level. -/
abbrev BlockExtractor := List String → Nat → Nat → Except PErr (Token × Nat)

set_option maxHeartbeats 2000000 in
/-- The `while i < len(lines)` loop of `extract_conditional_block`,
returning `(branches, final index, closer found)`; `dc` / `dl` extract the
nested conditional / loop blocks.  Fuel only bounds the scan (every pass
consumes at least one line). -/
def condLoop (dc dl : BlockExtractor) (lines : List String) (startIndex : Nat) :
    Nat → CondState → Except PErr (List BranchT × Nat × Bool)
  | 0, _ => .error .fuelExhausted
  | fuel + 1, st =>
    if st.i < lines.length then
      let line := lines.getD st.i ""
      let stripped := pyStrip line
      if pyStartsWith stripped "#" then
        condLoop dc dl lines startIndex fuel { st with i := st.i + 1 }
      else if (pyStartsWith stripped "<<py" ∨ pyStartsWith stripped "@py") ∧ st.cur.isSome then
        let st1 := condFlushPlain st
        match extractPythonBlock lines st.i with
        | .error e => .error e
        | .ok (code, consumed) =>
          condLoop dc dl lines startIndex fuel
            { condAppend st1 (Token.pythonBlock code) with i := st.i + consumed }
      else if pyStartsWith stripped "@input" ∧ st.cur.isSome then
        let st1 := condFlushPlain st
        let st2 := match parseInputLine line with
          | some d => condAppend st1 (Token.inputDir d)
          | Option.none => st1
        condLoop dc dl lines startIndex fuel { st2 with i := st.i + 1 }
      else if pyStartsWith stripped "@render" ∧ st.cur.isSome then
        let st1 := condFlushPlain st
        let st2 := match parseRenderLine line with
          | some d => condAppend st1 (Token.renderDir d)
          | Option.none => st1
        condLoop dc dl lines startIndex fuel { st2 with i := st.i + 1 }
      else if pyStartsWith stripped "~ " ∧ st.cur.isSome then
        let st1 := condFlushPlain st
        let assignment := (stripInlineComment (pyStrip (pyDrop stripped 2))).1
        condLoop dc dl lines startIndex fuel
          { condAppend st1 (tildeToken assignment) with i := st.i + 1 }
      else if (pyStartsWith stripped "<<if " ∨ pyStartsWith stripped "@if ")
          ∧ st.i ≠ startIndex ∧ st.cur.isSome then
        let st1 := condFlushPlain st
        match dc lines st.i fuel with
        | .error e => .error e
        | .ok (nested, consumed) =>
          condLoop dc dl lines startIndex fuel
            { condAppend st1 nested with i := st.i + consumed }
      else if (pyStartsWith stripped "<<for " ∨ pyStartsWith stripped "@for ") ∧ st.cur.isSome then
        let st1 := condFlushPlain st
        match dl lines st.i fuel with
        | .error e => .error e
        | .ok (nested, consumed) =>
          condLoop dc dl lines startIndex fuel
            { condAppend st1 nested with i := st.i + consumed }
      else if (pyStartsWith stripped "<<if " ∨ pyStartsWith stripped "@if ") ∧ st.i = startIndex then
        if pyStartsWith stripped "@if " then
          match matchColonHeader "if" (stripInlineComment stripped).1 with
          | Option.none => .error (.missingColon "if" st.i)
          | some cond =>
            condLoop dc dl lines startIndex fuel
              { st with cur := some (cond, [], []), blines := [], i := st.i + 1 }
        else
          match matchOldHeader "if" (stripInlineComment stripped).1 with
          | Option.none =>
            -- `condition` stays unbound and the branch-building line raises
            .error (.unboundLocalCondition st.i)
          | some cond =>
            condLoop dc dl lines startIndex fuel
              { st with cur := some (cond, [], []), blines := [], i := st.i + 1 }
      else if stripped = "@endif:" then
        .error (.closerColonTypo "endif" st.i)
      else if pyStartsWith stripped "<<endif>>" ∨ stripped = "@endif" then
        if 0 < st.nesting then
          let st1 := match st.cur with
            | some _ => { st with blines := st.blines ++ [line] }
            | Option.none => st
          condLoop dc dl lines startIndex fuel
            { st1 with nesting := st.nesting - 1, i := st.i + 1 }
        else
          let finalBranches := match st.cur with
            | some cur => st.branches ++ [(cur.1, cur.2.1 ++ flushGlue st.blines, cur.2.2)]
            | Option.none => st.branches
          .ok (finalBranches, st.i + 1, true)
      else if (pyStartsWith stripped "<<elif " ∨ pyStartsWith stripped "@elif ") ∧ st.nesting = 0 then
        if pyStartsWith stripped "@elif " then
          match matchColonHeader "elif" (stripInlineComment stripped).1 with
          | Option.none => .error (.missingColon "elif" st.i)
          | some cond =>
            condLoop dc dl lines startIndex fuel { condFinalize st cond with i := st.i + 1 }
        else
          match matchOldHeader "elif" (stripInlineComment stripped).1 with
          | Option.none => .error (.unboundLocalCondition st.i)
          | some cond =>
            condLoop dc dl lines startIndex fuel { condFinalize st cond with i := st.i + 1 }
      else if (pyStartsWith stripped "<<else>>" ∨ pyStartsWith stripped "@else") ∧ st.nesting = 0 then
        if pyStartsWith stripped "@else" then
          if pyStrip (stripInlineComment stripped).1 ≠ "@else:" then
            .error (.missingColon "else" st.i)
          else condLoop dc dl lines startIndex fuel { condFinalize st "True" with i := st.i + 1 }
        else condLoop dc dl lines startIndex fuel { condFinalize st "True" with i := st.i + 1 }
      else if pyStartsWith stripped "->" then
        let st1 := match matchJumpTarget stripped, st.cur with
          | some target, some _ => condAppend st (Token.jump target)
          | _, _ => st
        condLoop dc dl lines startIndex fuel { st1 with i := st.i + 1 }
      else if (pyStartsWith stripped "+" ∨ pyStartsWith stripped "*") ∧ st.cur.isSome then
        let st1 := condFlushPlain st
        let st2 := match parseChoiceLine stripped with
          | some c => condAppendChoice st1 c
          | Option.none => st1
        condLoop dc dl lines startIndex fuel { st2 with i := st.i + 1 }
      else
        let st1 := match st.cur with
          | some _ => { st with blines := st.blines ++ [line] }
          | Option.none => st
        condLoop dc dl lines startIndex fuel { st1 with i := st.i + 1 }
    else
      .ok (st.branches, st.i, false)

/-- Phase-1 line collection of `extract_loop_block`:
`(header, raw lines, final index, closer found)`. -/
def loopCollect (lines : List String) (startIndex : Nat) :
    Nat → Option (String × String) → Bool → List String → Nat →
    Except PErr (Option (String × String) × List String × Nat × Bool)
  | 0, _, _, _, _ => .error .fuelExhausted
  | fuel + 1, header, started, raws, i =>
    if i < lines.length then
      let line := lines.getD i ""
      let stripped := pyStrip line
      if (pyStartsWith stripped "<<for " ∨ pyStartsWith stripped "@for ") ∧ i = startIndex then
        if pyStartsWith stripped "@for " then
          match matchForHeader true (stripInlineComment stripped).1 with
          | Option.none => .error (.missingColon "for" i)
          | some hd => loopCollect lines startIndex fuel (some hd) true raws (i + 1)
        else
          match matchForHeader false (stripInlineComment stripped).1 with
          | Option.none => .error (.invalidLoop stripped)
          | some hd => loopCollect lines startIndex fuel (some hd) true raws (i + 1)
      else if stripped = "@endfor:" then
        .error (.closerColonTypo "endfor" i)
      else if pyStartsWith stripped "<<endfor>>" ∨ stripped = "@endfor" then
        .ok (header, raws, i + 1, true)
      else
        let raws2 := if started then raws ++ [line] else raws
        loopCollect lines startIndex fuel header started raws2 (i + 1)
    else
      .ok (header, raws, i, false)

/-- Phase-2 parsing of the dedented loop body: one pass per dispatch arm
of the source, accumulating content tokens and loop-level choices; `dc` /
`dl` extract the nested conditional / loop blocks. -/
def loopBodyParse (dc dl : BlockExtractor) (dedented : List String) :
    Nat → Nat → List Token → List PChoice → Except PErr (List Token × List PChoice)
  | _, 0, _, _ => .error .fuelExhausted
  | j, fuel + 1, content, choices =>
    if j < dedented.length then
      let line := dedented.getD j ""
      let stripped := pyStrip line
      if pyStartsWith stripped "#" then
        loopBodyParse dc dl dedented (j + 1) fuel content choices
      else if pyStartsWith stripped "<<py" ∨ pyStartsWith stripped "@py" then
        match extractPythonBlock dedented j with
        | .error e => .error e
        | .ok (code, consumed) =>
          loopBodyParse dc dl dedented (j + consumed) fuel
            (content ++ [Token.pythonBlock code]) choices
      else if pyStartsWith stripped "@input" then
        let content2 := match parseInputLine line with
          | some d => content ++ [Token.inputDir d]
          | Option.none => content
        loopBodyParse dc dl dedented (j + 1) fuel content2 choices
      else if pyStartsWith stripped "@render" then
        let content2 := match parseRenderLine line with
          | some d => content ++ [Token.renderDir d]
          | Option.none => content
        loopBodyParse dc dl dedented (j + 1) fuel content2 choices
      else if pyStartsWith line "~ " then
        let assignment := (stripInlineComment (pyStrip (pyDrop line 2))).1
        loopBodyParse dc dl dedented (j + 1) fuel (content ++ [tildeToken assignment]) choices
      else if pyStartsWith stripped "<<for " ∨ pyStartsWith stripped "@for " then
        match dl dedented j fuel with
        | .error e => .error e
        | .ok (nested, consumed) =>
          loopBodyParse dc dl dedented (j + consumed) fuel (content ++ [nested]) choices
      else if pyStartsWith stripped "<<if " ∨ pyStartsWith stripped "@if " then
        match dc dedented j fuel with
        | .error e => .error e
        | .ok (nested, consumed) =>
          loopBodyParse dc dl dedented (j + consumed) fuel (content ++ [nested]) choices
      else if pyStartsWith stripped "->" then
        let content2 := match matchJumpTarget stripped with
          | some target => content ++ [Token.jump target]
          | Option.none => content
        loopBodyParse dc dl dedented (j + 1) fuel content2 choices
      else if pyStartsWith stripped "+" ∨ pyStartsWith stripped "*" then
        let choices2 := match parseChoiceLine stripped with
          | some c => choices ++ [c]
          | Option.none => choices
        loopBodyParse dc dl dedented (j + 1) fuel content choices2
      else
        loopBodyParse dc dl dedented (j + 1) fuel (content ++ lineToksGlue line) choices
    else
      .ok (content, choices)


/-- `extract_conditional_block` (`parsing/blocks.py`) at one nesting
level: scan from the opening `<<if ` / `@if ` line to the matching
closer, accumulating branches; reaching the end of input without the
closer is the `Unclosed Block` error naming the opening line. -/
def extractCondWith (dc dl : BlockExtractor) (lines : List String)
    (startIndex : Nat) : Nat → Except PErr (Token × Nat)
  | 0 => .error .fuelExhausted
  | fuel + 1 =>
    match condLoop dc dl lines startIndex fuel
        { branches := [], cur := Option.none, blines := [], nesting := 0,
          i := startIndex } with
    | .error e => .error e
    | .ok (bs, endI, found) =>
      if ¬found then .error (.unclosedBlock "if" startIndex)
      else .ok (Token.conditional bs, endI - startIndex)

/-- `extract_loop_block` (`parsing/blocks.py`) at one nesting level:
parse the `for` header, collect the raw body lines up to `<<endfor>>` /
`@endfor` (erroring on the `@endfor:` typo), then hand the dedented body
to `loopBodyParse`; a missing closer is the `Unclosed Block` error —
raised, as in the source, only after the body has been parsed. -/
def extractLoopWith (dc dl : BlockExtractor) (lines : List String)
    (startIndex : Nat) : Nat → Except PErr (Token × Nat)
  | 0 => .error .fuelExhausted
  | fuel + 1 =>
    match loopCollect lines startIndex fuel Option.none false [] startIndex with
    | .error e => .error e
    | .ok (header, raws, endI, found) =>
      let varName := (header.getD ("", "")).1
      let coll := (header.getD ("", "")).2
      match loopBodyParse dc dl (detectAndStripIndentation raws) 0 fuel [] [] with
      | .error e => .error e
      | .ok (content, choices) =>
        if ¬found then .error (.unclosedBlock "for" startIndex)
        else .ok (Token.forLoop varName coll content choices, endI - startIndex)

/-- The pair of extractors available at a given nesting-level budget:
every nested block consumes at least one unit of fuel, so running the
level-`fuel` pair with fuel `fuel` (as the public wrappers below do)
never reaches the exhausted level. -/
def extractorsAt : Nat → BlockExtractor × BlockExtractor
  | 0 => (fun _ _ _ => .error .fuelExhausted, fun _ _ _ => .error .fuelExhausted)
  | d + 1 =>
    (extractCondWith (extractorsAt d).1 (extractorsAt d).2,
     extractLoopWith (extractorsAt d).1 (extractorsAt d).2)

/-- `extract_conditional_block`: the level-tied entry point. -/
def extractConditionalBlock (lines : List String) (startIndex fuel : Nat) :
    Except PErr (Token × Nat) :=
  (extractorsAt fuel).1 lines startIndex fuel

/-- `extract_loop_block`: the level-tied entry point. -/
def extractLoopBlock (lines : List String) (startIndex fuel : Nat) :
    Except PErr (Token × Nat) :=
  (extractorsAt fuel).2 lines startIndex fuel


/-- A `text` token holding exactly a newline (the separator tokens the
orchestrator inserts and the cleanup passes inspect). -/
def isNLTok : Token → Bool
  | .text v _ => v = "\n"
  | _ => false

/-- A conditional token (for the whitespace cleanup). -/
def isCondTok : Token → Bool
  | .conditional _ => true
  | _ => false

/-- The accumulating loop of `_cleanup_whitespace`. -/
def cleanupLoop (cleaned : List Token) : List Token → List Token
  | [] => cleaned
  | tok :: rest =>
    if isNLTok tok ∧ (rest.head?.map isCondTok).getD false
        ∧ (cleaned.getLast?.map isNLTok).getD false then
      cleanupLoop cleaned rest
    else if isNLTok tok ∧ (cleaned.getLast?.map isCondTok).getD false
        ∧ (rest.head?.map isNLTok).getD false then
      cleanupLoop cleaned rest
    else cleanupLoop (cleaned ++ [tok]) rest

/-- `_cleanup_whitespace`: collapse doubled blank lines around
conditionals. -/
def cleanupContent (content : List Token) : List Token :=
  cleanupLoop [] content

/-- `_trim_trailing_newlines`: keep at most one trailing newline token. -/
def trimTrailingNewlines (content : List Token) : List Token :=
  let tn := (content.reverse.takeWhile isNLTok).length
  if 1 < tn then content.take (content.length - (tn - 1)) else content

/-- The post-pass applied to every parsed passage. -/
def cleanPassage (p : Passage) : Passage :=
  { p with content := trimTrailingNewlines (cleanupContent p.content) }

/-- `_determine_initial_passage`: explicit `@start` (must exist), then a
passage named `Start`, then the first-defined passage (with a warning). -/
def determineInitialPassage (passages : List (String × Passage))
    (explicitStart : Option String) : Except PErr String :=
  if passages.isEmpty then .error (.valueError "Story has no passages")
  else
    let ex := explicitStart.getD ""
    if ex ≠ "" then
      if (passages.lookup ex).isNone then
        .error (.valueError
          ("Start passage " ++ sq ++ ex ++ sq ++ " specified by @start directive not found."))
      else .ok ex
    else if (passages.lookup "Start").isSome then .ok "Start"
    else
      match passages.head? with
      | some p => .ok p.1
      | Option.none => .error (.valueError "Story has no passages")

/-- `check_duplicate_passages` (`parsing/validation.py`): every passage
name recorded at more than one line is collected, and one aggregated
`ValueError` carrying all of them (each with its full list of line
numbers) is raised. -/
def checkDuplicatePassages (locations : List (String × List Nat)) : Except PErr Unit :=
  let dups := locations.filter (fun p => 1 < p.2.length)
  if dups.isEmpty then .ok () else .error (.duplicatePassages dups)

/-- Modelled from the spec: `validate_passage_name` lives in the
`parsing/validation` revision that is not in the tree.  The spec requires
the name to satisfy "the identifier rules required for it to be usable as
a choice/jump target", and targets are matched by `[\w.]+`. -/
def validatePassageName (name : String) (lineNum : Nat) : Except PErr Unit :=
  if name ≠ "" ∧ name.toList.all isWordDotChar then .ok ()
  else .error (.syntaxError ("Invalid passage name: " ++ name) lineNum)

/-- Modelled from the spec: `validate_choice_syntax` is likewise not in
the tree; a malformed choice line is a hard compile error, so the
validation is modelled as requiring `parse_choice_line` to succeed. -/
def validateChoiceSyntax (line : String) (lineNum : Nat) : Except PErr Unit :=
  if (parseChoiceLine line).isSome then .ok ()
  else .error (.syntaxError "Invalid choice syntax" lineNum)

/-- `BlockStack.check_empty`: a new passage header with open blocks is a
hard error.  (The orchestrator never pushes — extractors consume whole
blocks — so the stack stays empty.) -/
def blockStackCheckEmpty (stack : List (String × Nat)) (lineNum : Nat) : Except PErr Unit :=
  match stack with
  | [] => .ok ()
  | (kind, startLine) :: _ =>
    .error (.syntaxError ("Unclosed @" ++ kind ++ " block") lineNum)

/-- The accumulator of the `parse` orchestrator (`parsing/core.py`). -/
structure PAcc where
  imports : List String
  metadata : List (String × String)
  passages : List (String × Passage)
  locations : List (String × List Nat)
  curName : Option String
  explicitStart : Option String
  blockStack : List (String × Nat)
  inImports : Bool
  inMetadata : Bool

/-- Update the current passage in the passages dict. -/
def updCur (acc : PAcc) (f : Passage → Passage) : PAcc :=
  match acc.curName with
  | Option.none => acc
  | some nm =>
    { acc with passages := acc.passages.map (fun p => if p.1 = nm then (p.1, f p.2) else p) }

/-- Record a passage definition line for duplicate detection
(`passage_locations[name].append(i + 1)`). -/
def locAppend (locations : List (String × List Nat)) (name : String) (lineNo : Nat) :
    List (String × List Nat) :=
  if locations.any (fun p => p.1 = name) then
    locations.map (fun p => if p.1 = name then (p.1, p.2 ++ [lineNo]) else p)
  else locations ++ [(name, [lineNo])]

/-- Dict update for string-valued maps (metadata). -/
def smapSet (m : List (String × String)) (k v : String) : List (String × String) :=
  if m.any (fun p => p.1 = k) then m.map (fun p => if p.1 = k then (k, v) else p)
  else m ++ [(k, v)]

/-- Dict update for the passages map (`passages[name] = current_passage`:
in-place update keeps the first position, as a Python dict does). -/
def pmapSet (m : List (String × Passage)) (k : String) (v : Passage) :
    List (String × Passage) :=
  if m.any (fun p => p.1 = k) then m.map (fun p => if p.1 = k then (k, v) else p)
  else m ++ [(k, v)]

/-- The line loop of `parse` (`parsing/core.py`): inline import /
metadata scanning, passage headers with location tracking and name
validation, block extraction, directives, jumps, `~` statements, choices,
glue-aware content lines and blank lines. -/
def parseCollect (lines : List String) : Nat → Nat → PAcc → Except PErr PAcc
  | _, 0, _ => .error .fuelExhausted
  | i, fuel + 1, acc =>
    if i < lines.length then
      let line := lines.getD i ""
      let stripped := pyStrip line
      let blockFuel := (lines.length + 2) * (lines.length + 2)
      if acc.inImports ∧ (stripped = "" ∨ pyStartsWith stripped "#") then
        parseCollect lines (i + 1) fuel { acc with imports := acc.imports ++ [line] }
      else if acc.inImports ∧ (pyStartsWith stripped "import " ∨ pyStartsWith stripped "from ") then
        parseCollect lines (i + 1) fuel { acc with imports := acc.imports ++ [line] }
      else
        -- first non-import line ends the import section
        let acc := { acc with inImports := false }
        if stripped = "@metadata" then
          parseCollect lines (i + 1) fuel { acc with inMetadata := true }
        else if acc.inMetadata ∧ stripped = "" then
          parseCollect lines (i + 1) fuel acc
        else if acc.inMetadata ∧ (pyStartsWith line " " ∨ pyStartsWith line "\t")
            ∧ containsSub stripped ":" then
          let kv := splitOnce stripped ":"
          parseCollect lines (i + 1) fuel
            { acc with metadata := smapSet acc.metadata (pyStrip kv.1) (pyStrip kv.2) }
        else
          -- a non-matching line ends the metadata block
          let acc := { acc with inMetadata := false }
          if pyStartsWith stripped "@start " then
            parseCollect lines (i + 1) fuel
              { acc with explicitStart := some (pyStrip (pyDrop stripped 7)) }
          else if pyStartsWith line ":: " then
            let header := (stripInlineComment (pyStrip (pyDrop line 3))).1
            let tagged := parseTags header
            let name := tagged.1
            match validatePassageName name i with
            | .error e => .error e
            | .ok _ =>
              match blockStackCheckEmpty acc.blockStack i with
              | .error e => .error e
              | .ok _ =>
                let fresh : Passage :=
                  { id := name, tags := tagged.2, content := [], choices := [],
                    execute := [], inputDirectives := [] }
                parseCollect lines (i + 1) fuel
                  { acc with
                    locations := locAppend acc.locations name (i + 1)
                    curName := some name
                    passages := pmapSet acc.passages name fresh }
          else if acc.curName.isNone then
            parseCollect lines (i + 1) fuel acc
          else if pyStartsWith stripped "#" then
            parseCollect lines (i + 1) fuel acc
          else if pyStartsWith stripped "<<py" ∨ pyStartsWith stripped "@py" then
            match extractPythonBlock lines i with
            | .error e => .error e
            | .ok (code, consumed) =>
              parseCollect lines (i + consumed) fuel
                (updCur acc (fun p => { p with execute := p.execute ++ [.pythonBlock code] }))
          else if pyStartsWith stripped "<<if " ∨ pyStartsWith stripped "@if " then
            match extractConditionalBlock lines i blockFuel with
            | .error e => .error e
            | .ok (tok, consumed) =>
              parseCollect lines (i + consumed) fuel
                (updCur acc (fun p => { p with content := p.content ++ [tok] }))
          else if pyStartsWith stripped "<<for " ∨ pyStartsWith stripped "@for " then
            match extractLoopBlock lines i blockFuel with
            | .error e => .error e
            | .ok (tok, consumed) =>
              parseCollect lines (i + consumed) fuel
                (updCur acc (fun p => { p with content := p.content ++ [tok] }))
          else if pyStartsWith stripped "@render" then
            let acc2 := match parseRenderLine line with
              | some d => updCur acc (fun p => { p with content := p.content ++ [.renderDir d] })
              | Option.none => acc
            parseCollect lines (i + 1) fuel acc2
          else if pyStartsWith stripped "@input" then
            let acc2 := match parseInputLine line with
              | some d =>
                updCur acc (fun p => { p with inputDirectives := p.inputDirectives ++ [d] })
              | Option.none => acc
            parseCollect lines (i + 1) fuel acc2
          else if pyStartsWith stripped "->" then
            let acc2 := match matchJumpTarget stripped with
              | some target =>
                updCur acc (fun p => { p with content := p.content ++ [.jump target] })
              | Option.none => acc
            parseCollect lines (i + 1) fuel acc2
          else if pyStartsWith line "~ " then
            let code := (stripInlineComment (pyStrip (pyDrop line 2))).1
            let r := extractMultilineExpression lines i code
            parseCollect lines (i + r.2) fuel
              (updCur acc (fun p => { p with execute := p.execute ++ [.pythonStatement r.1] }))
          else if pyStartsWith line "+ " ∨ pyStartsWith line "* " then
            match validateChoiceSyntax line i with
            | .error e => .error e
            | .ok _ =>
              match parseChoiceLine line with
              | some c =>
                parseCollect lines (i + 1) fuel
                  (updCur acc (fun p => { p with choices := p.choices ++ [c] }))
              | Option.none => .error (.internalError i)
          else if stripped ≠ "" then
            parseCollect lines (i + 1) fuel
              (updCur acc (fun p => { p with content := p.content ++ lineToksGlue line }))
          else
            -- blank line inside a passage: a newline token
            parseCollect lines (i + 1) fuel
              (updCur acc (fun p =>
                { p with content := p.content ++ [Token.text "\n" Option.none] }))
    else .ok acc

/-- The initial accumulator of the parse orchestrator. -/
def initialPAcc : PAcc :=
  { imports := [], metadata := [], passages := [], locations := [],
    curName := Option.none, explicitStart := Option.none, blockStack := [],
    inImports := true, inMetadata := false }

/-- `parse` (`parsing/core.py`): run the line loop, clean up whitespace in
every passage, check for duplicate passages (one aggregated error), pick
the initial passage, and assemble the document. -/
def coreParse (src : String) : Except PErr Document :=
  let lines := pySplit src "\n"
  match parseCollect lines 0 (lines.length + 1) initialPAcc with
  | .error e => .error e
  | .ok acc =>
    let passages2 := acc.passages.map (fun p => (p.1, cleanPassage p.2))
    match checkDuplicatePassages acc.locations with
    | .error e => .error e
    | .ok _ =>
      match determineInitialPassage passages2 acc.explicitStart with
      | .error e => .error e
      | .ok ip =>
        .ok { version := "0.1.0", initialPassage := ip, metadata := acc.metadata,
              imports := acc.imports, passages := passages2 }

/-- The per-line body of `extract_imports` (`parser.py`): note the two
`if` statements are consecutive, not chained — a blank or comment line is
appended and then also falls into the second `if`, whose `else` arm ends
the import section and appends the line a second time to the remainder. -/
def extractImportsLoop : Bool → List String → List String → List String →
    Except PErr (List String × List String)
  | _, imports, remaining, [] => .ok (imports, remaining)
  | inImp, imports, remaining, line :: rest =>
    let stripped := pyStrip line
    let pair :=
      if stripped = "" ∨ pyStartsWith stripped "#" then
        if inImp then (imports ++ [line], remaining) else (imports, remaining ++ [line])
      else (imports, remaining)
    if pyStartsWith stripped "import " ∨ pyStartsWith stripped "from " then
      if inImp then extractImportsLoop inImp (pair.1 ++ [line]) pair.2 rest
      else .error (.valueError
        ("Import statements must appear at the top of the file. Found import after other content: "
          ++ stripped))
    else extractImportsLoop false pair.1 (pair.2 ++ [line]) rest

/-- `extract_imports` (`parser.py`): split off the top import section,
erroring on an import line after non-import content. -/
def extractImports (source : String) : Except PErr (List String × String) :=
  match extractImportsLoop true [] [] (pySplit source "\n") with
  | .ok r => .ok (r.1, pyJoin "\n" r.2)
  | .error e => .error e

/-! ## Concrete fixtures for witnesses and counterexamples -/

/-- A minimal host: every embedded evaluation raises `NameError`, imports
execute to an empty namespace, iteration works on lists only — the
behaviour CPython shows when the story uses no resolvable expressions. -/
def hostTriv : Host where
  evalStr := fun c _ => .error (.nameError ("name " ++ c ++ " is not defined"))
  execPy := fun _ env => .ok env
  pyIter := fun v => match v with
    | .list xs => .ok xs
    | _ => .error (.typeError "object is not iterable")
  pyBool := fun v => match v with
    | .bool b => b
    | .int n => n ≠ 0
    | .str s => s ≠ ""
    | .none => false
    | .list xs => ¬xs.isEmpty
    | .dict kvs => ¬kvs.isEmpty
  pyStr := fun v => match v with
    | .str s => s
    | .bool b => if b then "True" else "False"
    | .none => "None"
    | _ => "?"
  pyFormat := fun _ _ => .error (.exc "ValueError" "Invalid format specifier")
  pyInt := fun _ => Option.none
  pyFloat := fun _ => Option.none
  parseDirArgs := fun _ _ => .ok []
  frameworkProc := fun _ _ _ => .none
  execImports := fun _ => .ok []
  timestamp := "2026-01-01T00:00:00"
  deserializeObj := fun _ v => v

/-- A host resolving exactly the two expressions of the save/load
counterexample story: the literal `1` and the increment `x + 1`. -/
def hostC1 : Host :=
  { hostTriv with
    evalStr := fun c env =>
      if c = "1" then .ok (.int 1)
      else if c = "x + 1" then
        match envGet env "x" with
        | some (.int n) => .ok (.int (n + 1))
        | _ => .error (.nameError "name 'x' is not defined")
      else .error (.nameError ("name " ++ c ++ " is not defined")) }

/-- Shorthand passage constructor for fixtures. -/
def mkPassage (pid : String) (content : List Token) (choices : List PChoice)
    (execute : List Command) : Passage :=
  { id := pid, tags := [], content := content, choices := choices,
    execute := execute, inputDirectives := [] }

/-- Shorthand document constructor for fixtures. -/
def mkDoc (ip : String) (ps : List (String × Passage)) : Document :=
  { version := "0.1.0", initialPassage := ip, metadata := [], imports := [],
    passages := ps }

/-- The save/load counterexample story: `Start` sets `x = 1` and offers a
choice to `P`; `P` runs the non-idempotent command `x = x + 1`. -/
def docC1 : Document :=
  mkDoc "Start"
    [("Start",
      mkPassage "Start" [.text "at start"]
        [{ text := .s "go", target := "P", condition := Option.none,
           sticky := true, tags := [] }]
        [.setVar "x" "1"]),
     ("P", mkPassage "P" [.text "at P"] [] [.setVar "x" "x + 1"])]

/-- Construction plus taking the choice: the engine standing at `P` with
`x = 2`. -/
def c1Engine : Except PyErr (Engine × PassageOutput) :=
  match initEngine hostC1 docC1 [] true with
  | .ok (e, _) => choose hostC1 e 0
  | .error er => .error er

/-- The snapshot `save_state()` takes there. -/
def c1Save : Option SaveData :=
  match c1Engine with
  | .ok (e, _) => some (saveState hostC1 e)
  | .error _ => Option.none

/-- A freshly re-constructed engine for the same document, with the
snapshot loaded. -/
def c1Loaded : Except PyErr (Engine × PassageOutput) :=
  match c1Save with
  | some sd =>
    (match initEngine hostC1 docC1 [] true with
     | .ok (e2, _) => loadState hostC1 e2 sd
     | .error er => .error er)
  | Option.none => .error .assertionError

/-- The `x` binding of the saved snapshot. -/
def c1SavedX : Option (Option Value) :=
  c1Save.map (fun sd => envGet sd.state "x")

/-- The `x` binding after the round trip. -/
def c1LoadedX : Option (Option Value) :=
  match c1Loaded with
  | .ok (e, _) => some (envGet e.state "x")
  | .error _ => Option.none

/-- A one-passage story whose only passage has no execute commands and
pure content (used to witness the amended round-trip law). -/
def docC1w : Document :=
  mkDoc "Start" [("Start", mkPassage "Start" [.text "hello"] [] [])]

/-- An engine as `initEngine` leaves it on `docC1w`. -/
def engC1w : Engine :=
  { doc := docC1w, currentPassageId := some "Start",
    state := [("_inputs", .dict [])], usedChoices := [], context := [],
    evaluateDirectives := true,
    currentOutput := some
      { content := "hello", choices := [], passageId := "Start",
        renderDirectives := [], inputDirectives := [], jumpTarget := Option.none } }

/-- The output `renderPassage` produces for `Start` of `docC1w`. -/
def outC1w : PassageOutput :=
  { content := "hello", choices := [], passageId := "Start",
    renderDirectives := [], inputDirectives := [], jumpTarget := Option.none }

/-- The one-time-choice story of the identity-mismatch counterexample:
`P` offers a one-time choice with tokenized text `[text "Go"]` to `Q`, and
`Q` offers a sticky way back. -/
def docC4 : Document :=
  mkDoc "P"
    [("P",
      mkPassage "P" [.text "At P"]
        [{ text := .toks [CTok.text "Go" Option.none], target := "Q",
           condition := Option.none, sticky := false, tags := [] }] []),
     ("Q",
      mkPassage "Q" [.text "At Q"]
        [{ text := .s "Back", target := "P", condition := Option.none,
           sticky := true, tags := [] }] [])]

/-- Construct, take the one-time choice, and come back to `P`. -/
def c4Run : Except PyErr (Engine × PassageOutput) :=
  match initEngine hostTriv docC4 [] true with
  | .ok (e, _) =>
    (match choose hostTriv e 0 with
     | .ok (e2, _) => choose hostTriv e2 0
     | .error er => .error er)
  | .error er => .error er

/-- What the player sees back at `P`, plus the recorded identities. -/
def c4View : Option (String × List (String × String × Bool) × List String) :=
  match c4Run with
  | .ok (e, o) =>
    some (o.passageId,
      o.choices.map (fun c => (choiceTextKey c.text, c.target, c.sticky)),
      e.usedChoices)
  | .error _ => Option.none

/-- The three-passage jump chain `A -> B -> C` used to witness the chain
law. -/
def docC2 : Document :=
  mkDoc "A"
    [("A", mkPassage "A" [.text "ca", .jump "B"] [] []),
     ("B", mkPassage "B" [.text "cb", .jump "C"] [] []),
     ("C", mkPassage "C" [.text "cc"]
        [{ text := .s "done", target := "A", condition := Option.none,
           sticky := true, tags := [] }] [])]

/-- A bare engine on `docC2` (what `__init__` builds just before its first
`goto`). -/
def engC2 : Engine :=
  { doc := docC2, currentPassageId := Option.none,
    state := [("_inputs", .dict [])], usedChoices := [], context := [],
    evaluateDirectives := true, currentOutput := Option.none }

/-- A default output record (for total projections in fixtures). -/
def outDefault : PassageOutput :=
  { content := "", choices := [], passageId := "",
    renderDirectives := [], inputDirectives := [], jumpTarget := Option.none }

/-- The `(state, output)` `renderPassage` yields for one passage of the
chain, as a total projection. -/
def renderOf (pid : String) (st : Env) : Env × PassageOutput :=
  match renderPassage hostTriv ⟨engC2.context, engC2.evaluateDirectives⟩
      engC2.usedChoices (some pid) docC2.passages pid st with
  | .ok r => r
  | .error _ => ([], outDefault)

/-- The two-passage jump cycle `A -> B -> A` used to witness the cycle
error. -/
def docC3 : Document :=
  mkDoc "A"
    [("A", mkPassage "A" [.jump "B"] [] []),
     ("B", mkPassage "B" [.jump "A"] [] [])]

/-- A bare engine on `docC3`. -/
def engC3 : Engine :=
  { doc := docC3, currentPassageId := Option.none,
    state := [("_inputs", .dict [])], usedChoices := [], context := [],
    evaluateDirectives := true, currentOutput := Option.none }

/-- The duplicate-passage source of the compile-error witness. -/
def c5src : String := ":: Foo\nfirst\n\n:: Foo\nsecond"

/-- The accumulator the line loop reaches on `c5src` (total projection;
the loop does succeed there, see the witness). -/
def c5acc : PAcc :=
  match parseCollect (pySplit c5src "\n") 0 ((pySplit c5src "\n").length + 1)
      initialPAcc with
  | .ok acc => acc
  | .error _ => initialPAcc

/-- The two-passage source of the invariant witness. -/
def c8src : String := ":: Start\nHello\n+ [Go] -> End\n\n:: End\nBye"

/-- A document whose `initial_passage` is not a key of `passages`. -/
def docC8bad : Document :=
  mkDoc "Nowhere" [("Start", mkPassage "Start" [.text "hi"] [] [])]

/-- The unclosed-conditional source lines of the C9 witness. -/
def c9condLines : List String := ["@if x > 1:", "some text", "more text"]

/-- The unclosed-loop source lines of the C9 witness. -/
def c9loopLines : List String := ["<<for x in xs>>", "body text"]

/-- The fresh engine state (just the `_inputs` dict). -/
def stInputs : Env := [("_inputs", Value.dict [])]

/-- The pre-jump output `renderPassage` yields for `A` of the chain. -/
def outA : PassageOutput :=
  { content := "ca", choices := [], passageId := "A",
    renderDirectives := [], inputDirectives := [], jumpTarget := some "B" }

/-- The pre-jump output for `B` of the chain. -/
def outB : PassageOutput :=
  { content := "cb", choices := [], passageId := "B",
    renderDirectives := [], inputDirectives := [], jumpTarget := some "C" }

/-- The single choice of `C` in the chain fixture. -/
def chC : PChoice :=
  { text := .s "done", target := "A", condition := Option.none, sticky := true,
    tags := [] }

/-- The output for `C` of the chain (no jump; one choice). -/
def outC : PassageOutput :=
  { content := "cc", choices := [chC], passageId := "C",
    renderDirectives := [], inputDirectives := [], jumpTarget := Option.none }

/-- The accumulated chain output `goto` caches on `docC2`. -/
def outChain : PassageOutput :=
  { content := "ca\n\ncb\n\ncc", choices := [chC], passageId := "C",
    renderDirectives := [], inputDirectives := [], jumpTarget := Option.none }

/-- The engine after the chained `goto("A")` on `docC2`. -/
def engC2after : Engine :=
  { engC2 with
    state := stInputs
    currentPassageId := some "C"
    currentOutput := some outChain }

/-- `engC1w` with its own snapshot's state restored — the engine
`load_state` hands to `goto`. -/
def engC1wDeser : Engine :=
  { engC1w with
    state := deserializeState hostTriv engC1w.context (serializeState engC1w.state)
    usedChoices := engC1w.usedChoices }

/-- The document `coreParse` produces on `c8src` (total projection). -/
def c8doc : Document :=
  match coreParse c8src with
  | .ok d => d
  | .error _ => mkDoc "" []

/-- A body line carrying none of the markers the conditional-block scanner
dispatches on: such a line always lands in the final raw-content arm. -/
def plainCondLine (line : String) : Bool :=
  let s := pyStrip line
  !(pyStartsWith s "#") && !(pyStartsWith s "<<") && !(pyStartsWith s "@") &&
    !(pyStartsWith s "->") && !(pyStartsWith s "+") && !(pyStartsWith s "*") &&
    !(pyStartsWith s "~ ")

/-! ## Helper lemmas -/

/-- Prefix-of-prefix transitivity for the char-list prefix test. -/
theorem isPrefixList_trans : ∀ {p q s : List Char}, isPrefixList p q = true →
    isPrefixList q s = true → isPrefixList p s = true
  | [], _, _, _, _ => rfl
  | _ :: _, [], _, h1, _ => by simp [isPrefixList] at h1
  | _ :: _, _ :: _, [], _, h2 => by simp [isPrefixList] at h2
  | _ :: _, _ :: _, _ :: _, h1, h2 => by
    simp [isPrefixList] at h1 h2 ⊢
    exact ⟨h1.1.trans h2.1, isPrefixList_trans h1.2 h2.2⟩

/-- A string that does not start with `p` does not start with any
extension `q` of `p`. -/
theorem startsWith_false_mono (s p q : String)
    (hpq : isPrefixList p.data q.data = true)
    (hp : pyStartsWith s p = false) : pyStartsWith s q = false := by
  cases hq : pyStartsWith s q with
  | false => rfl
  | true =>
    have : pyStartsWith s p = true := isPrefixList_trans hpq hq
    rw [hp] at this
    exact absurd this (by simp)

/-- A successful association-list lookup means the key is among the keys. -/
theorem lookup_mem_keys {β : Type} {l : List (String × β)} {k : String} {v : β}
    (h : l.lookup k = some v) : k ∈ l.map Prod.fst := by
  induction l with
  | nil => simp [List.lookup] at h
  | cons kv rest ih =>
    rw [List.lookup] at h
    by_cases hk : k = kv.1
    · show k ∈ kv.1 :: rest.map Prod.fst
      rw [hk]
      exact List.mem_cons_self _ _
    · simp [beq_false_of_ne hk] at h
      show k ∈ kv.1 :: rest.map Prod.fst
      exact List.mem_cons_of_mem _ (ih h)

/-- A successful `_execute_passage` implies the passage exists. -/
theorem executePassage_ok_lookup {h : Host} {ctx : Env}
    {ps : List (String × Passage)} {pid : String} {st st1 : Env}
    (hok : executePassage h ctx ps pid st = .ok st1) :
    ∃ p, ps.lookup pid = some p := by
  unfold executePassage at hok
  cases hl : ps.lookup pid with
  | none => rw [hl] at hok; exact absurd hok (by simp)
  | some p => exact ⟨p, rfl⟩

/-- A duplicate-free list of keys fits inside the key list. -/
theorem length_le_of_nodup_subset {l keys : List String} (hn : l.Nodup)
    (hs : ∀ x ∈ l, x ∈ keys) : l.length ≤ keys.length :=
  (List.subperm_of_subset hn hs).length_le

/-- A successful `goto` found the target, set the current passage to the
final output's passage, and left `used_choices` (and the fixed engine
fields) untouched. -/
theorem goto_ok_shape {h : Host} {e : Engine} {pid : String} {e2 : Engine}
    {out : PassageOutput} (hok : goto h e pid = .ok (e2, out)) :
    (e.doc.passages.lookup pid).isNone = false
    ∧ e2.currentPassageId = some out.passageId
    ∧ e2.usedChoices = e.usedChoices
    ∧ e2.doc = e.doc ∧ e2.context = e.context := by
  unfold goto at hok
  by_cases hg : (e.doc.passages.lookup pid).isNone = true
  · rw [if_pos hg] at hok
    exact absurd hok (by simp)
  · rw [if_neg hg] at hok
    cases hr : gotoLoop h e.doc ⟨e.context, e.evaluateDirectives⟩ e.usedChoices
        e.state [] [] [] pid (gotoFuel e.doc) with
    | error er => rw [hr] at hok; exact absurd hok (by simp)
    | ok p =>
      obtain ⟨st, out'⟩ := p
      rw [hr] at hok
      simp only [Except.ok.injEq, Prod.mk.injEq] at hok
      obtain ⟨hE, hO⟩ := hok
      subst hO
      refine ⟨by simpa using hg, ?_, ?_, ?_, ?_⟩ <;> rw [← hE]

/-- A successful `_determine_initial_passage` picks an existing key of a
non-empty passage map. -/
theorem determineInitialPassage_ok {ps : List (String × Passage)}
    {ex : Option String} {ip : String}
    (hok : determineInitialPassage ps ex = .ok ip) :
    ps ≠ [] ∧ (ps.lookup ip).isSome = true := by
  unfold determineInitialPassage at hok
  by_cases hemp : ps.isEmpty = true
  · rw [if_pos hemp] at hok
    exact absurd hok (by simp)
  · rw [if_neg hemp] at hok
    have hne : ps ≠ [] := by
      intro hnil
      rw [hnil] at hemp
      exact hemp rfl
    refine ⟨hne, ?_⟩
    by_cases hex : ex.getD "" ≠ ""
    · rw [if_pos hex] at hok
      by_cases hl : (ps.lookup (ex.getD "")).isNone = true
      · rw [if_pos hl] at hok
        exact absurd hok (by simp)
      · rw [if_neg hl] at hok
        simp only [Except.ok.injEq] at hok
        subst hok
        simpa [Option.isSome_iff_ne_none] using hl
    · rw [if_neg hex] at hok
      by_cases hs : (ps.lookup "Start").isSome = true
      · rw [if_pos hs] at hok
        simp only [Except.ok.injEq] at hok
        subst hok
        exact hs
      · rw [if_neg hs] at hok
        cases hh : ps.head? with
        | none => rw [hh] at hok; exact absurd hok (by simp)
        | some p =>
          rw [hh] at hok
          simp only [Except.ok.injEq] at hok
          subst hok
          cases ps with
          | nil => exact absurd hh (by simp)
          | cons q rest =>
            simp only [List.head?_cons, Option.some.injEq] at hh
            subst hh
            simp [List.lookup]

/-- The jump-following loop is fuel-stable: under the `goto` entry
invariant (no duplicates among the visited passages, every visited
passage a key, and fuel exceeding the remaining distinct passages) the
result does not depend on the fuel — the source's unbounded `while True`
is realised faithfully. -/
theorem gotoLoop_fuel_stable (h : Host) (doc : Document) (rc : RCtx)
    (used : List String) :
    ∀ fuel m (st : Env) (visited accC : List String)
      (accD : List RenderedDirective) (current : String),
    visited.Nodup → (∀ v ∈ visited, v ∈ doc.passages.map Prod.fst) →
    doc.passages.length < fuel + visited.length →
    gotoLoop h doc rc used st visited accC accD current fuel
      = gotoLoop h doc rc used st visited accC accD current (fuel + m) := by
  intro fuel
  induction fuel with
  | zero =>
    intro m st visited accC accD current hnd hsub hlen
    exfalso
    have hle := length_le_of_nodup_subset hnd hsub
    rw [List.length_map] at hle
    omega
  | succ f ih =>
    intro m st visited accC accD current hnd hsub hlen
    have hm : f + 1 + m = (f + m) + 1 := by omega
    rw [hm]
    by_cases hmem : current ∈ visited
    · simp only [gotoLoop, hmem, if_true]
    · simp only [gotoLoop, hmem, if_false]
      cases hex : executePassage h rc.context doc.passages current st with
      | error e => simp only [hex]
      | ok st1 =>
        simp only [hex]
        cases hrp : renderPassage h rc used (some current) doc.passages current st1 with
        | error e => simp only [hrp]
        | ok p =>
          obtain ⟨st2, out⟩ := p
          simp only [hrp]
          cases hjt : out.jumpTarget with
          | none => simp only [hjt]
          | some t =>
            simp only [hjt]
            apply ih
            · simp [List.nodup_append, hnd, hmem]
            · intro v hv
              rw [List.mem_append] at hv
              cases hv with
              | inl hv => exact hsub v hv
              | inr hv =>
                rw [List.mem_singleton] at hv
                subst hv
                obtain ⟨p, hp⟩ := executePassage_ok_lookup hex
                exact lookup_mem_keys hp
            · rw [List.length_append, List.length_singleton]
              omega

/-- The conditional-block scanner on a run of plain content lines: it
consumes them all into the pending branch and reports `found = false` at
the end of input, with the branch list untouched. -/
theorem condLoop_plain (dc dl : BlockExtractor) (lines : List String)
    (startIndex : Nat) :
    ∀ fuel (st : CondState), st.i ≤ lines.length →
    (∀ j, st.i ≤ j → j < lines.length → plainCondLine (lines.getD j "") = true) →
    lines.length - st.i + 1 ≤ fuel →
    condLoop dc dl lines startIndex fuel st
      = .ok (st.branches, lines.length, false) := by
  intro fuel
  induction fuel with
  | zero =>
    intro st hle hplain hfuel
    omega
  | succ f ih =>
    intro st hle hplain hfuel
    by_cases hi : st.i < lines.length
    · have hp := hplain st.i le_rfl hi
      simp only [plainCondLine, Bool.and_eq_true, Bool.not_eq_true'] at hp
      obtain ⟨⟨⟨⟨⟨⟨h1, h2⟩, h3⟩, h4⟩, h5⟩, h6⟩, h7⟩ := hp
      have d1 : pyStartsWith (pyStrip (lines.getD st.i "")) "<<py" = false :=
        startsWith_false_mono _ "<<" _ (by decide) h2
      have d2 : pyStartsWith (pyStrip (lines.getD st.i "")) "@py" = false :=
        startsWith_false_mono _ "@" _ (by decide) h3
      have d3 : pyStartsWith (pyStrip (lines.getD st.i "")) "@input" = false :=
        startsWith_false_mono _ "@" _ (by decide) h3
      have d4 : pyStartsWith (pyStrip (lines.getD st.i "")) "@render" = false :=
        startsWith_false_mono _ "@" _ (by decide) h3
      have d5 : pyStartsWith (pyStrip (lines.getD st.i "")) "<<if " = false :=
        startsWith_false_mono _ "<<" _ (by decide) h2
      have d6 : pyStartsWith (pyStrip (lines.getD st.i "")) "@if " = false :=
        startsWith_false_mono _ "@" _ (by decide) h3
      have d7 : pyStartsWith (pyStrip (lines.getD st.i "")) "<<for " = false :=
        startsWith_false_mono _ "<<" _ (by decide) h2
      have d8 : pyStartsWith (pyStrip (lines.getD st.i "")) "@for " = false :=
        startsWith_false_mono _ "@" _ (by decide) h3
      have d9 : pyStartsWith (pyStrip (lines.getD st.i "")) "<<endif>>" = false :=
        startsWith_false_mono _ "<<" _ (by decide) h2
      have d10 : pyStartsWith (pyStrip (lines.getD st.i "")) "<<elif " = false :=
        startsWith_false_mono _ "<<" _ (by decide) h2
      have d11 : pyStartsWith (pyStrip (lines.getD st.i "")) "@elif " = false :=
        startsWith_false_mono _ "@" _ (by decide) h3
      have d12 : pyStartsWith (pyStrip (lines.getD st.i "")) "<<else>>" = false :=
        startsWith_false_mono _ "<<" _ (by decide) h2
      have d13 : pyStartsWith (pyStrip (lines.getD st.i "")) "@else" = false :=
        startsWith_false_mono _ "@" _ (by decide) h3
      have hne1 : ¬(pyStrip (lines.getD st.i "") = "@endif:") := by
        intro he
        rw [he] at h3
        exact absurd h3 (by decide)
      have hne2 : ¬(pyStrip (lines.getD st.i "") = "@endif") := by
        intro he
        rw [he] at h3
        exact absurd h3 (by decide)
      simp only [condLoop]
      simp only [hi, if_true]
      simp at h1 h4 h5 h6 h7 d1 d2 d3 d4 d5 d6 d7 d8 d9 d10 d11 d12 d13 hne1 hne2 ⊢
      simp [h1, h4, h5, h6, h7, d1, d2, d3, d4, d5, d6, d7, d8, d9, d10, d11, d12,
        d13, hne1, hne2]
      cases hcur : st.cur with
      | some c =>
        simp only [hcur]
        refine ih _ ?_ ?_ ?_
        · show st.i + 1 ≤ lines.length
          omega
        · intro j hj1 hj2
          have hj1' : st.i + 1 ≤ j := hj1
          exact hplain j (by omega) hj2
        · show lines.length - (st.i + 1) + 1 ≤ f
          omega
      | none =>
        simp only [hcur]
        refine ih _ ?_ ?_ ?_
        · show st.i + 1 ≤ lines.length
          omega
        · intro j hj1 hj2
          have hj1' : st.i + 1 ≤ j := hj1
          exact hplain j (by omega) hj2
        · show lines.length - (st.i + 1) + 1 ≤ f
          omega
    · have hieq : st.i = lines.length := by omega
      simp [condLoop, hi, hieq]

/-! ## Claim theorems -/

/-- C10: `extract_imports` must accept import lines preceded only by blank
and comment lines; the code does not — a leading comment line both ends
the import section (the missing `continue` falls into the second `if`'s
`else`) and is duplicated, so the following import line raises the
import-after-content `ValueError`.  This closed evaluation exhibits the
failing input: a comment, then `import os`, then a passage — legal per the
claim, rejected by the code (the comment line is also collected twice,
into both the import list and the remainder). -/
theorem C10_import_after_comment_rejected :
    extractImports "# note\nimport os\n:: Start\nHi" =
      .error (.valueError
        ("Import statements must appear at the top of the file. Found import after other content: "
          ++ "import os"))
    ∧ extractImportsLoop true [] [] ["# note"] = .ok (["# note"], ["# note"]) := by
  exact ⟨rfl, rfl⟩

/-- C6: rendering must capture every expression-evaluation error as an
inline error marker and keep going — it does for interpolation tokens
(second conjunct), but a failing for-loop collection expression makes
`_render_loop`'s `except` handler return a 2-tuple that the 3-variable
unpacking at the call site turns into
`ValueError: not enough values to unpack (expected 3, got 2)`: rendering
raises instead of completing (first conjunct). -/
theorem C6_loop_collection_error_crashes_render :
    renderContent hostTriv ⟨[], true⟩ []
        [Token.forLoop "x" "undefined_list" [Token.text "hi" Option.none] []]
      = .error (.valueError "not enough values to unpack (expected 3, got 2)")
    ∧ renderContent hostTriv ⟨[], true⟩ []
        [Token.expr "undefined_list" Option.none, Token.text "after" Option.none]
      = .ok ⟨[], "\x7bERROR: undefined variable 'undefined_list'\x7d" ++ "after",
          Option.none, []⟩ := by
  exact ⟨rfl, rfl⟩

/-- C7: `_is_choice_available` returns `False` exactly when the choice is
one-time with its `(current passage, text, target)` identity already in
`used_choices`, or it carries a (non-empty) condition that evaluates falsy
or raises during evaluation; the function is `Bool`-valued, so a condition
failure hides the choice without aborting rendering. -/
theorem C7_choice_availability (h : Host) (ctx st : Env) (used : List String)
    (pid : Option String) (c : PChoice) :
    isChoiceAvailable h ctx st used pid c = false ↔
      ((c.sticky = false ∧ choiceId pid c.text c.target ∈ used)
        ∨ (∃ cond, c.condition = some cond ∧ cond ≠ ""
            ∧ (match h.evalStr cond (mergeEnv ctx st) with
               | .ok v => h.pyBool v = false
               | .error _ => True))) := by
  unfold isChoiceAvailable
  by_cases h1 : ¬c.sticky = true ∧ choiceId pid c.text c.target ∈ used
  · rw [if_pos h1]
    simp only [eq_self_iff_true, true_iff]
    exact Or.inl ⟨by simpa using h1.1, h1.2⟩
  · rw [if_neg h1]
    have hns : ¬(c.sticky = false ∧ choiceId pid c.text c.target ∈ used) := by
      intro hcon
      exact h1 ⟨by simp [hcon.1], hcon.2⟩
    cases hc : c.condition with
    | none => simp [hns]
    | some cond =>
      by_cases hce : cond = ""
      · subst hce
        simp [hns]
      · cases he : h.evalStr cond (mergeEnv ctx st) with
        | ok v => simp [hns, hce, he]
        | error e => simp [hns, hce, he]

/-- C1 (counterexample): the round-trip law fails as stated, because
`load_state` deliberately re-runs the restored passage's `execute`
commands via `goto`.  On `docC1` the player stands at `P` with `x = 2`
(the snapshot records it), but the freshly re-constructed engine after
`load_state` holds `x = 3` — `P`'s non-idempotent `x = x + 1` ran once
more, so the restored `variables` map differs from the saved one. -/
theorem C1_roundtrip_counterexample :
    c1SavedX = some (some (.int 2)) ∧ c1LoadedX = some (some (.int 3)) :=
  ⟨rfl, rfl⟩

/-- C1 (amended): the round-trip law that does hold.  If the `goto`
re-run of the saved passage leaves the restored state unchanged (in
particular when its `execute` commands are idempotent on it, as the
DESIGN NOTES assume), then `load_state` of a `save_state` snapshot on a
freshly re-constructed engine for the same document succeeds and
reproduces the saved `variables` map, `current_passage_id` and
`used_choices`. -/
theorem C1_roundtrip_amended (h : Host) (e e0 : Engine) (pid : String)
    (e2 : Engine) (out2 : PassageOutput)
    (hdoc : e0.doc = e.doc)
    (hpid : e.currentPassageId = some pid)
    (hgoto : goto h
      { e0 with
        state := deserializeState h e0.context (serializeState e.state)
        usedChoices := e.usedChoices } pid = .ok (e2, out2))
    (hidem : e2.state = e.state)
    (hnav : out2.passageId = pid) :
    loadState h e0 (saveState h e) = .ok (e2, out2)
    ∧ e2.state = e.state
    ∧ e2.currentPassageId = some pid
    ∧ e2.usedChoices = e.usedChoices := by
  obtain ⟨hlook, hcur, hused, _, _⟩ := goto_ok_shape hgoto
  refine ⟨?_, hidem, ?_, ?_⟩
  · unfold loadState
    simp only [saveState]
    rw [hpid]
    simp only [Option.getD_some]
    rw [hlook]
    simp only [Bool.false_eq_true, if_false]
    exact hgoto
  · rw [hcur, hnav]
  · rw [hused]

/-- C1 (amended, witness): the one-passage pure story round-trips on the
nose. -/
theorem C1_roundtrip_amended_witness :
    loadState hostTriv engC1w (saveState hostTriv engC1w) = .ok (engC1w, outC1w)
    ∧ engC1w.state = engC1w.state
    ∧ engC1w.currentPassageId = some "Start"
    ∧ engC1w.usedChoices = engC1w.usedChoices :=
  C1_roundtrip_amended hostTriv engC1w engC1w "Start" engC1w outC1w
    rfl rfl rfl rfl rfl

/-- C4: the one-time choice law fails in the code, because `choose`
records the identity built from the *rendered* text while
`_is_choice_available` rebuilds it from the *raw token list* of the same
choice.  On `docC4` the player takes the one-time tokenized-text choice
`Go` at `P`, walks back, and still sees it: the recorded identity is
`P:Go:Q`, but availability is checked against the repr-keyed identity
(second conjunct), which is never in `used_choices`. -/
theorem C4_one_time_identity_mismatch :
    c4View = some ("P", [("Go", "Q", false)], ["P:Go:Q"])
    ∧ choiceId (some "P") (.toks [CTok.text "Go" Option.none]) "Q"
        = "P:[\x7b'type': 'text', 'value': 'Go'\x7d]:Q" :=
  ⟨rfl, rfl⟩

/-- C5: duplicate passages in one source unit make the parse fail with a
single aggregated duplicate-passage error carrying every offending name
with its full list of definition line numbers — no overwrite, no
per-duplicate errors: whenever the line loop itself succeeds and has
recorded any name at more than one line, `parse` raises exactly the one
aggregated error. -/
theorem C5_duplicate_passages_single_error (src : String) (acc : PAcc)
    (hrun : parseCollect (pySplit src "\n") 0 ((pySplit src "\n").length + 1)
      initialPAcc = .ok acc)
    (hdup : acc.locations.filter (fun p => 1 < p.2.length) ≠ []) :
    coreParse src =
      .error (.duplicatePassages (acc.locations.filter (fun p => 1 < p.2.length))) := by
  unfold coreParse
  simp only [hrun]
  unfold checkDuplicatePassages
  cases hne : (acc.locations.filter (fun p => 1 < p.2.length)).isEmpty with
  | true => exact absurd (List.isEmpty_iff.mp hne) hdup
  | false => simp [hne]

/-- C5 (witness): the two-`Foo` source produces the one aggregated error
listing both definition lines. -/
theorem C5_duplicate_passages_witness :
    coreParse c5src = .error (.duplicatePassages [("Foo", [1, 4])]) :=
  C5_duplicate_passages_single_error c5src c5acc rfl (by decide)

/-- C8: every successfully parsed document has a non-empty passage map
containing `initial_passage` (first conjunct); an explicit `@start`
naming a missing passage is a compile error (second conjunct); and
engine construction on a document whose `initial_passage` is not a key
raises before any navigation (third conjunct — the check precedes the
initial `goto`). -/
theorem C8_initial_passage_invariant :
    (∀ src d, coreParse src = .ok d →
      d.passages ≠ [] ∧ (d.passages.lookup d.initialPassage).isSome = true)
    ∧ (∀ ps ex, ps.isEmpty = false → ex ≠ "" → List.lookup ex ps = Option.none →
        determineInitialPassage ps (some ex) = .error (.valueError
          ("Start passage " ++ sq ++ ex ++ sq
            ++ " specified by @start directive not found.")))
    ∧ (∀ h doc ctx ed, doc.imports = [] → doc.initialPassage ≠ "" →
        doc.passages.lookup doc.initialPassage = Option.none →
        initEngine h doc ctx ed = .error (.valueError
          ("Initial passage " ++ sq ++ doc.initialPassage ++ sq
            ++ " not found in story."))) := by
  refine ⟨?_, ?_, ?_⟩
  · intro src d hok
    unfold coreParse at hok
    cases hpc : parseCollect (pySplit src "\n") 0 ((pySplit src "\n").length + 1)
        initialPAcc with
    | error e => simp only [hpc] at hok; exact absurd hok (by simp)
    | ok acc =>
      simp only [hpc] at hok
      cases hcd : checkDuplicatePassages acc.locations with
      | error e => simp only [hcd] at hok; exact absurd hok (by simp)
      | ok u =>
        simp only [hcd] at hok
        cases hdi : determineInitialPassage
            (acc.passages.map (fun p => (p.1, cleanPassage p.2))) acc.explicitStart with
        | error e => simp only [hdi] at hok; exact absurd hok (by simp)
        | ok ip =>
          simp only [hdi] at hok
          simp only [Except.ok.injEq] at hok
          subst hok
          exact determineInitialPassage_ok hdi
  · intro ps ex hemp hex hlook
    unfold determineInitialPassage
    rw [hemp]
    simp only [Bool.false_eq_true, if_false]
    simp only [Option.getD_some]
    rw [if_pos hex, hlook]
    simp
  · intro h doc ctx ed himp hne hlook
    unfold initEngine
    rw [himp]
    simp only [executeImports, List.isEmpty_nil, if_true]
    rw [if_neg hne, hlook]
    simp

/-- C8 (witness): the parsed two-passage story satisfies the invariant;
a missing `@start` target errors; the engine on `docC8bad` raises the
pre-navigation error. -/
theorem C8_initial_passage_witness :
    ((c8doc.passages ≠ [] ∧ (c8doc.passages.lookup c8doc.initialPassage).isSome = true)
    ∧ determineInitialPassage [("Start", mkPassage "Start" [] [] [])] (some "Missing")
        = .error (.valueError
          ("Start passage " ++ sq ++ "Missing" ++ sq
            ++ " specified by @start directive not found."))
    ∧ initEngine hostTriv docC8bad [] true = .error (.valueError
        ("Initial passage " ++ sq ++ "Nowhere" ++ sq ++ " not found in story."))) :=
  ⟨C8_initial_passage_invariant.1 c8src c8doc rfl,
   C8_initial_passage_invariant.2.1 [("Start", mkPassage "Start" [] [] [])] "Missing"
     rfl (by decide) rfl,
   C8_initial_passage_invariant.2.2 hostTriv docC8bad [] true rfl (by decide) rfl⟩

/-- C2: an acyclic jump chain `A -> B -> C` navigated by `goto(A)` yields
the three pre-jump contents double-newline-joined, threads the state so
that each passage's `execute` commands run exactly once (`e.state` through
`stA1 .. stC2`), reports the last passage's choices and input directives,
and accumulates the render directives of the whole chain. -/
theorem C2_jump_chain (h : Host) (e : Engine) (A B C : String)
    (stA1 stA2 stB1 stB2 stC1 stC2 : Env) (oA oB oC : PassageOutput)
    (hBA : B ≠ A) (hCA : C ≠ A) (hCB : C ≠ B)
    (hA : executePassage h e.context e.doc.passages A e.state = .ok stA1)
    (hrA : renderPassage h ⟨e.context, e.evaluateDirectives⟩ e.usedChoices
      (some A) e.doc.passages A stA1 = .ok (stA2, oA))
    (hjA : oA.jumpTarget = some B) (hcA : oA.content ≠ "")
    (hB : executePassage h e.context e.doc.passages B stA2 = .ok stB1)
    (hrB : renderPassage h ⟨e.context, e.evaluateDirectives⟩ e.usedChoices
      (some B) e.doc.passages B stB1 = .ok (stB2, oB))
    (hjB : oB.jumpTarget = some C) (hcB : oB.content ≠ "")
    (hC : executePassage h e.context e.doc.passages C stB2 = .ok stC1)
    (hrC : renderPassage h ⟨e.context, e.evaluateDirectives⟩ e.usedChoices
      (some C) e.doc.passages C stC1 = .ok (stC2, oC))
    (hjC : oC.jumpTarget = Option.none) (hcC : oC.content ≠ "") :
    goto h e A = .ok
      ({ e with
         state := stC2
         currentPassageId := some oC.passageId
         currentOutput := some
           { content := pyJoin "\n\n" [oA.content, oB.content, oC.content]
             choices := oC.choices
             passageId := oC.passageId
             renderDirectives :=
               oA.renderDirectives ++ oB.renderDirectives ++ oC.renderDirectives
             inputDirectives := oC.inputDirectives
             jumpTarget := Option.none } },
       { content := pyJoin "\n\n" [oA.content, oB.content, oC.content]
         choices := oC.choices
         passageId := oC.passageId
         renderDirectives :=
           oA.renderDirectives ++ oB.renderDirectives ++ oC.renderDirectives
         inputDirectives := oC.inputDirectives
         jumpTarget := Option.none }) := by
  obtain ⟨pA, hpA⟩ := executePassage_ok_lookup hA
  obtain ⟨pB, hpB⟩ := executePassage_ok_lookup hB
  obtain ⟨pC, hpC⟩ := executePassage_ok_lookup hC
  have hlen : 3 ≤ e.doc.passages.length := by
    have hnd : ([A, B, C] : List String).Nodup := by
      simp [List.nodup_cons, hBA.symm, hCA.symm, hCB.symm]
    have hsub : ∀ x ∈ ([A, B, C] : List String),
        x ∈ e.doc.passages.map Prod.fst := by
      intro x hx
      simp only [List.mem_cons, List.not_mem_nil, or_false] at hx
      rcases hx with rfl | rfl | rfl
      · exact lookup_mem_keys hpA
      · exact lookup_mem_keys hpB
      · exact lookup_mem_keys hpC
    have hle := length_le_of_nodup_subset hnd hsub
    rw [List.length_map] at hle
    simpa using hle
  obtain ⟨k, hk⟩ : ∃ k, e.doc.passages.length = k + 3 :=
    ⟨e.doc.passages.length - 3, by omega⟩
  have hfuel : gotoFuel e.doc = k + 1 + 1 + 1 + 1 := by
    rw [gotoFuel, hk]
  unfold goto
  rw [hfuel]
  simp [gotoLoop, hpA, hA, hrA, hjA, hcA, hB, hrB, hjB, hcB, hC, hrC, hjC, hcC,
    hBA, hCA, hCB]

/-- C2 (witness): the concrete chain `A -> B -> C` of `docC2`. -/
theorem C2_jump_chain_witness :
    goto hostTriv engC2 "A" = .ok (engC2after, outChain) := by
  have h := C2_jump_chain hostTriv engC2 "A" "B" "C"
    stInputs stInputs stInputs stInputs stInputs stInputs outA outB outC
    (by decide) (by decide) (by decide)
    rfl rfl rfl (by decide)
    rfl rfl rfl (by decide)
    rfl rfl rfl (by decide)
  exact h

/-- C3: the jump-following loop inside `goto` terminates.  First
conjunct: on `goto`'s own entry the loop's result is independent of the
fuel bound realising the `while True` — it is decided before any bound is
reached, for every document, engine state and start passage.  Second
conjunct: as soon as the chain revisits a passage already visited in the
same call, the loop raises the fatal cycle error naming the chain. -/
theorem C3_goto_loop_terminates :
    (∀ (h : Host) (e : Engine) (pid : String) (m : Nat),
      gotoLoop h e.doc ⟨e.context, e.evaluateDirectives⟩ e.usedChoices e.state
          [] [] [] pid (gotoFuel e.doc)
        = gotoLoop h e.doc ⟨e.context, e.evaluateDirectives⟩ e.usedChoices e.state
          [] [] [] pid (gotoFuel e.doc + m))
    ∧ (∀ (h : Host) (doc : Document) (rc : RCtx) (used : List String) (st : Env)
        (visited accC : List String) (accD : List RenderedDirective)
        (current : String) (fuel : Nat), current ∈ visited →
        gotoLoop h doc rc used st visited accC accD current (fuel + 1)
          = .error (.runtimeError
            ("Jump loop detected: " ++ pyJoin " -> " (visited ++ [current])))) := by
  constructor
  · intro h e pid m
    apply gotoLoop_fuel_stable
    · exact List.nodup_nil
    · intro v hv
      exact absurd hv (List.not_mem_nil v)
    · rw [gotoFuel]
      simp
  · intro h doc rc used st visited accC accD current fuel hmem
    simp only [gotoLoop, hmem, if_true]

/-- C3 (witness): on the two-passage cycle `A -> B -> A` the loop result
is fuel-stable, and the revisit raises the cycle error. -/
theorem C3_goto_loop_witness :
    gotoLoop hostTriv docC3 ⟨[], true⟩ [] stInputs [] [] [] "A" (gotoFuel docC3)
      = gotoLoop hostTriv docC3 ⟨[], true⟩ [] stInputs [] [] [] "A" (gotoFuel docC3 + 5)
    ∧ gotoLoop hostTriv docC3 ⟨[], true⟩ [] stInputs ["A", "B"] [] [] "A" 3
      = .error (.runtimeError "Jump loop detected: A -> B -> A") :=
  ⟨C3_goto_loop_terminates.1 hostTriv engC3 "A" 5,
   C3_goto_loop_terminates.2 hostTriv docC3 ⟨[], true⟩ [] stInputs ["A", "B"]
     [] [] "A" 2 (by decide)⟩

/-- C9: a conditional opener whose block is never closed before the end
of input is a hard compile error naming the opening line — the scanner
reports `found = false` and `extract_conditional_block` raises instead of
keeping the consumed lines as the body (first conjunct, for every
`@if ...:` opener followed by any run of plain content lines); an
unclosed loop opener errors the same way (second conjunct). -/
theorem C9_unclosed_block_error :
    (∀ (lines : List String) (cond : String) (fuel : Nat),
      0 < lines.length →
      pyStartsWith (pyStrip (lines.getD 0 "")) "#" = false →
      pyStartsWith (pyStrip (lines.getD 0 "")) "@if " = true →
      matchColonHeader "if" (stripInlineComment (pyStrip (lines.getD 0 ""))).1
        = some cond →
      (∀ j, 1 ≤ j → j < lines.length → plainCondLine (lines.getD j "") = true) →
      lines.length + 2 ≤ fuel →
      extractConditionalBlock lines 0 fuel = .error (.unclosedBlock "if" 0))
    ∧ extractLoopBlock c9loopLines 0 100 = .error (.unclosedBlock "for" 0) := by
  constructor
  · intro lines cond fuel hlen hhash hopen hhead hfplain hfuel
    obtain ⟨g, rfl⟩ : ∃ g, fuel = g + 1 + 1 := ⟨fuel - 2, by omega⟩
    have hwrap : ∀ (dc dl : BlockExtractor) f, lines.length < f →
        extractCondWith dc dl lines 0 (f + 1) = .error (.unclosedBlock "if" 0) := by
      intro dc dl f hf
      obtain ⟨k, rfl⟩ : ∃ k, f = k + 1 := ⟨f - 1, by omega⟩
      simp only [extractCondWith]
      have hstep : condLoop dc dl lines 0 (k + 1)
          { branches := [], cur := Option.none, blines := [], nesting := 0, i := 0 }
          = condLoop dc dl lines 0 k
            { branches := [], cur := some (cond, [], []), blines := [], nesting := 0,
              i := 1 } := by
        simp only [condLoop]
        simp [hlen] at hhash hopen hhead ⊢
        simp [hlen, hhash, hopen, hhead]
      rw [hstep]
      have hrest := condLoop_plain dc dl lines 0 k
        { branches := [], cur := some (cond, [], []), blines := [], nesting := 0,
          i := 1 }
        (by show 1 ≤ lines.length; omega)
        (fun j hj1 hj2 => hfplain j hj1 hj2)
        (by show lines.length - 1 + 1 ≤ k; omega)
      rw [hrest]
      simp
    unfold extractConditionalBlock
    simp only [extractorsAt]
    exact hwrap _ _ (g + 1) (by omega)
  · rfl

/-- C9 (witness): the concrete unclosed `@if` block errors on line 0. -/
theorem C9_unclosed_block_witness :
    extractConditionalBlock c9condLines 0 100 = .error (.unclosedBlock "if" 0) :=
  C9_unclosed_block_error.1 c9condLines "x > 1" 100 (by decide) rfl rfl rfl
    (by
      intro j hj1 hj2
      have hj3 : j < 3 := by simpa [c9condLines] using hj2
      interval_cases j
      · rfl
      · rfl)
    (by decide)

end Bardic
